import Mathlib

/-!
Verification development for the context-engine session-processing service.

The Python sources are shallowly embedded: text is modelled as `List Char`
(`Str`), machine time instants as `Nat`, and every stateful operation as a
pure state transformer.  Each definition mirrors one Python function and is
named after it.
-/

namespace ContextEngine

/-- Text, modelled as a list of characters (Python `str`). -/
abbrev Str := List Char

/-- Build a `Str` from a Lean string literal. -/
def strOf (s : String) : Str := s.data

/-- Python `str.lower()` (ASCII model). -/
def pyLower (s : Str) : Str := s.map Char.toLower

/-- Python `\s` / `str.split()` whitespace class. -/
def pyIsSpace (c : Char) : Bool :=
  c == ' ' || c == '\t' || c == '\n' || c == '\r' || c == Char.ofNat 11 || c == Char.ofNat 12

/-- Python `str.strip()` with no argument: drop surrounding whitespace. -/
def pyStrip (s : Str) : Str :=
  ((s.dropWhile pyIsSpace).reverse.dropWhile pyIsSpace).reverse

/-- Helper for `pySplit`: accumulate the current word (reversed) while scanning. -/
def pySplitGo (acc : Str) : Str → List Str
  | [] => if acc = [] then [] else [acc.reverse]
  | c :: rest =>
    if pyIsSpace c then
      if acc = [] then pySplitGo [] rest else acc.reverse :: pySplitGo [] rest
    else pySplitGo (c :: acc) rest

/-- Python `str.split()` with no argument: split on whitespace runs, no empties. -/
def pySplit (s : Str) : List Str := pySplitGo [] s

/-- Decimal rendering of a natural number (Python `str(int)`). -/
def natToStr (n : Nat) : Str := Nat.toDigits 10 n

/-- Numeric value of a digit string (Python `int(str)`). -/
def digitsVal (s : Str) : Nat :=
  s.foldl (fun acc c => 10 * acc + (c.toNat - 48)) 0

/-!
### `utils/degradation.py`

`CircuitBreaker` and the slice of `DegradationManager` the claims touch
(the openrouter and kb_gateway dependencies and the master-context cache).
`time.time()` instants are modelled as `Nat`; each operation that reads the
clock takes it as an explicit argument.
-/

/-- `CircuitBreaker.__init__` state: threshold, recovery timeout, failure
count, last-failure instant and the state string. -/
structure CircuitBreaker where
  failureThreshold : Nat
  recoveryTimeout : Nat
  failureCount : Nat
  lastFailureTime : Nat
  state : String
  deriving Repr, DecidableEq

/-- `CircuitBreaker.record_success`: reset the count and close the circuit. -/
def recordSuccess (b : CircuitBreaker) : CircuitBreaker :=
  { b with failureCount := 0, state := "closed" }

/-- `CircuitBreaker.record_failure`: bump the count, stamp the instant, and
open the circuit once the count reaches the threshold. -/
def recordFailure (b : CircuitBreaker) (now : Nat) : CircuitBreaker :=
  let b1 := { b with failureCount := b.failureCount + 1, lastFailureTime := now }
  if b1.failureThreshold ≤ b1.failureCount then { b1 with state := "open" } else b1

/-- `CircuitBreaker.can_proceed`: closed allows; open allows (moving to
half_open) once the recovery timeout elapsed; half_open always allows. -/
def canProceed (b : CircuitBreaker) (now : Nat) : Bool × CircuitBreaker :=
  if b.state = "closed" then (true, b)
  else if b.state = "open" then
    if b.recoveryTimeout ≤ now - b.lastFailureTime then
      (true, { b with state := "half_open" })
    else (false, b)
  else (true, b)

/-- The slice of `DegradationManager` state used by the claims: the
master-context cache and the openrouter / kb_gateway dependency entries. -/
structure DM where
  cache : Option Str
  cacheTimestamp : Nat
  cacheSource : String
  orBreaker : CircuitBreaker
  orHealthy : Bool
  orError : Option String
  kbBreaker : CircuitBreaker
  kbHealthy : Bool
  kbError : Option String
  deriving Repr, DecidableEq

/-- `DegradationManager.update_cache`: accept only content longer than 50
characters (`if content and len(content) > 50`). -/
def updateCache (dm : DM) (content : Str) (now : Nat) (source : String) : DM :=
  if 50 < content.length then
    { dm with cache := some content, cacheTimestamp := now, cacheSource := source }
  else dm

/-- `mark_healthy("openrouter")`: set the health entry and close the breaker. -/
def markHealthyOpenrouter (dm : DM) : DM :=
  { dm with orHealthy := true, orError := none, orBreaker := recordSuccess dm.orBreaker }

/-- `mark_unhealthy("openrouter", error)`: set the health entry and record a
breaker failure at the current instant. -/
def markUnhealthyOpenrouter (dm : DM) (err : String) (now : Nat) : DM :=
  { dm with orHealthy := false, orError := some err,
            orBreaker := recordFailure dm.orBreaker now }

/-- `mark_healthy("kb_gateway")`. -/
def markHealthyKb (dm : DM) : DM :=
  { dm with kbHealthy := true, kbError := none, kbBreaker := recordSuccess dm.kbBreaker }

/-- `mark_unhealthy("kb_gateway", error)`. -/
def markUnhealthyKb (dm : DM) (err : String) (now : Nat) : DM :=
  { dm with kbHealthy := false, kbError := some err,
            kbBreaker := recordFailure dm.kbBreaker now }

/-- `can_call("openrouter")`, including the state mutation `can_proceed`
may perform (open → half_open). -/
def canCallOpenrouter (dm : DM) (now : Nat) : Bool × DM :=
  let r := canProceed dm.orBreaker now
  (r.1, { dm with orBreaker := r.2 })

/-!
### `services/openrouter.py` — the pre-call gate of `OpenRouterClient._call`

The outbound HTTP exchange is abstracted as a caller-supplied continuation
`proceed`; the embedding covers the gate in front of it (lines 255-259):
when `can_call("openrouter")` is false the client logs, calls
`mark_unhealthy("openrouter", "circuit breaker open")` and returns the empty
response (which the extraction layer turns into null).
-/

/-- `OpenRouterClient._call`, gate portion.  `proceed` stands for the rest of
the method (the actual network call). -/
def clientCallGated {α : Type} (proceed : DM → Option α × DM) (dm : DM) (now : Nat) :
    Option α × DM :=
  let r := canCallOpenrouter dm now
  if r.1 then proceed r.2
  else (none, markUnhealthyOpenrouter r.2 "circuit breaker open" now)

/-!
### `services/kb_gateway.py`

Disk files are modelled as `Option Str` fields of a `KBState`; whether a
write raises is supplied as a boolean outcome parameter.  `_git_commit` only
touches the external repository and is omitted from the state.
`_external_kb_accessible()` is `extMounted && !standalone` where `extMounted`
models `KB_ROOT.exists() and KB_ROOT.is_dir()`.
-/

/-- State seen by the KB gateway: the degradation manager plus the two
master-context files. -/
structure KBState where
  dm : DM
  localFile : Option Str
  externalFile : Option Str
  deriving Repr, DecidableEq

/-- A file read that found truthy content (`if content:`): non-empty text. -/
def truthyFile : Option Str → Option Str
  | some c => if c = [] then none else some c
  | none => none

/-- `read_master_context`: external KB, then local file, then cache. -/
def readMasterContext (st : KBState) (extMounted standalone : Bool) (now : Nat) :
    Option Str × KBState :=
  if extMounted ∧ ¬ standalone then
    match truthyFile st.externalFile with
    | some c =>
      let dm1 := markHealthyKb st.dm
      (some c, { st with dm := updateCache dm1 c now "live" })
    | none => readMasterLocal st standalone now
  else readMasterLocal st standalone now
where
  /-- The local-file and cache tiers of `read_master_context`. -/
  readMasterLocal (st : KBState) (standalone : Bool) (now : Nat) :
      Option Str × KBState :=
    match truthyFile st.localFile with
    | some c =>
      let dm1 := if standalone then markHealthyKb st.dm
                 else markUnhealthyKb st.dm "external KB unavailable, using local" now
      (some c, { st with dm := updateCache dm1 c now "local" })
    | none =>
      let dm1 := markUnhealthyKb st.dm "no file sources available" now
      match dm1.cache with
      | some c => (if c = [] then none else some c, { st with dm := dm1 })
      | none => (none, { st with dm := dm1 })

/-- `write_master_context`: update the cache first (tag "live"), always try
the local file, mirror to the external KB when accessible, and mark
kb_gateway unhealthy when every target failed.  `localWriteOk` /
`extWriteOk` model whether the two disk writes raise. -/
def writeMasterContext (st : KBState) (content : Str)
    (extMounted standalone localWriteOk extWriteOk : Bool) (now : Nat) :
    Bool × KBState :=
  let dm1 := updateCache st.dm content now "live"
  let localPart : Bool × Option Str :=
    if localWriteOk then (true, some content) else (false, st.localFile)
  let success1 := localPart.1
  let st1 : KBState := { st with dm := dm1, localFile := localPart.2 }
  if extMounted ∧ ¬ standalone then
    if extWriteOk then
      let st2 := { st1 with externalFile := some content, dm := markHealthyKb st1.dm }
      (true, st2)
    else
      let st2 := { st1 with dm := markUnhealthyKb st1.dm "external write failed" now }
      if success1 then (true, st2)
      else (false, { st2 with dm := markUnhealthyKb st2.dm "all write targets failed" now })
  else
    if success1 then (true, st1)
    else (false, { st1 with dm := markUnhealthyKb st1.dm "all write targets failed" now })

/-!
### `utils/nudges.py` and `utils/anomalies.py`

Expiry instants are `Nat` (ISO timestamps compare chronologically);
`timedelta(days=d)` is `d * 86400` model seconds.  The float comparison
`overlap > 0.8` with `overlap = shared / max(len, len)` is embedded as the
exact rational comparison `5 * shared > 4 * max` (equivalent for every
realistic word-set size).
-/

/-- A stored nudge record (one JSON entry of `nudges.json`). -/
structure Nudge where
  message : Str
  ntype : String
  priority : String
  createdAt : Nat
  expiresAt : Option Nat
  sessionId : Option Str
  dismissed : Bool
  deriving Repr, DecidableEq

/-- A nudge as produced by the model (input of `store_nudges`). -/
structure NudgeIn where
  message : Str
  ntype : Option String
  priority : Option String
  expiresAfterDays : Option Nat
  relatedSession : Option Str
  deriving Repr, DecidableEq

/-- A stored anomaly record (one JSON entry of `anomalies.json`). -/
structure Anomaly where
  description : Str
  atype : String
  severity : String
  evidence : Str
  sessionId : Option Str
  createdAt : Nat
  expiresAt : Option Nat
  dismissed : Bool
  deriving Repr, DecidableEq

/-- An anomaly as produced by the model (input of `store_anomalies`). -/
structure AnomalyIn where
  description : Str
  atype : Option String
  severity : Option String
  evidence : Option Str
  expiresAfterDays : Option Nat
  deriving Repr, DecidableEq

/-- `set(text.split())` : the distinct words of a text. -/
def wordSet (s : Str) : List Str := (pySplit s).dedup

/-- `len(new_words & existing_words)`. -/
def sharedWords (a b : List Str) : Nat := (a.filter (fun w => w ∈ b)).length

/-- The shared body of both `_is_duplicate` functions: exact (lowered,
stripped) match, or shared distinct words strictly above 80 % of the larger
word-set size. -/
def isDuplicateMsg (existingMsgs : List Str) (newMsg : Str) : Bool :=
  let nl := pyStrip (pyLower newMsg)
  existingMsgs.any fun m =>
    let el := pyStrip (pyLower m)
    if nl = el then true
    else
      let nw := wordSet nl
      let ew := wordSet el
      if nw ≠ [] ∧ ew ≠ [] then
        decide (5 * sharedWords nw ew > 4 * max nw.length ew.length)
      else false

/-- `nudges._is_duplicate`. -/
def isDuplicateNudge (existing : List Nudge) (newMsg : Str) : Bool :=
  isDuplicateMsg (existing.map Nudge.message) newMsg

/-- `anomalies._is_duplicate`. -/
def isDuplicateAnomaly (existing : List Anomaly) (newMsg : Str) : Bool :=
  isDuplicateMsg (existing.map Anomaly.description) newMsg

/-- `expires_at and fromisoformat(expires_at) < now`. -/
def expiredAt (now : Nat) : Option Nat → Bool
  | some e => e < now
  | none => false

/-- Stable insertion (after existing equals) for the Python stable sort. -/
def stableInsert {α : Type} (le : α → α → Bool) (a : α) : List α → List α
  | [] => [a]
  | b :: t => if le b a then b :: stableInsert le a t else a :: b :: t

/-- Python `list.sort(key=...)`: a stable sort. -/
def stableSort {α : Type} (le : α → α → Bool) (l : List α) : List α :=
  l.foldl (fun acc a => stableInsert le a acc) []

/-- `priority_order.get(n.get("priority"), 1)`. -/
def priorityRank (p : String) : Nat :=
  if p = "high" then 0 else if p = "medium" then 1 else if p = "low" then 2 else 1

/-- `severity_order.get(a.get("severity", "medium"), 2)`. -/
def severityRank (s : String) : Nat :=
  if s = "critical" then 0 else if s = "high" then 1
  else if s = "medium" then 2 else if s = "low" then 3 else 2

/-- `session_id or nudge.get("related_session")` (Python `or` on strings). -/
def sessionOr (sessionId : Option Str) (alt : Option Str) : Option Str :=
  match sessionId with
  | some s => if s = [] then alt else some s
  | none => alt

/-- The nudge entry built inside the `store_nudges` loop. -/
def mkNudgeEntry (now : Nat) (sessionId : Option Str) (it : NudgeIn) : Nudge :=
  { message := it.message
    ntype := it.ntype.getD "reminder"
    priority := it.priority.getD "medium"
    createdAt := now
    expiresAt := some (now + (it.expiresAfterDays.getD 7) * 86400)
    sessionId := sessionOr sessionId it.relatedSession
    dismissed := false }

/-- The expiry pruning at the top of `store_nudges`. -/
def activeNudgesAt (now : Nat) (existing : List Nudge) : List Nudge :=
  existing.filter (fun n => ¬ expiredAt now n.expiresAt)

/-- The sort key comparison `priority_order` of `store_nudges` (high first). -/
def nudgeLe (a b : Nudge) : Bool :=
  priorityRank a.priority ≤ priorityRank b.priority

/-- `store_nudges`: prune expired, drop duplicates, append, sort by priority
(high first, stable) and keep the first `MAX_ACTIVE_NUDGES = 20`.  Returns
the saved list and the `added` counter. -/
def storeNudges (now : Nat) (existing : List Nudge) (items : List NudgeIn)
    (sessionId : Option Str) : List Nudge × Nat :=
  let active0 := activeNudgesAt now existing
  let step := fun (acc : List Nudge × Nat) (it : NudgeIn) =>
    if isDuplicateNudge acc.1 it.message then acc
    else (acc.1 ++ [mkNudgeEntry now sessionId it], acc.2 + 1)
  let r := items.foldl step (active0, 0)
  let sorted := stableSort nudgeLe r.1
  (sorted.take 20, r.2)

/-- The anomaly entry built inside the `store_anomalies` loop. -/
def mkAnomalyEntry (now : Nat) (sessionId : Option Str) (it : AnomalyIn) : Anomaly :=
  { description := it.description
    atype := it.atype.getD "inconsistency"
    severity := it.severity.getD "medium"
    evidence := it.evidence.getD []
    sessionId := sessionId
    createdAt := now
    expiresAt := some (now + (it.expiresAfterDays.getD 14) * 86400)
    dismissed := false }

/-- The expiry-and-dismissed pruning at the top of `store_anomalies`. -/
def activeAnomaliesAt (now : Nat) (existing : List Anomaly) : List Anomaly :=
  existing.filter (fun a => ¬ expiredAt now a.expiresAt ∧ ¬ a.dismissed)

/-- The sort key comparison `severity_order` (critical first). -/
def anomalyLe (a b : Anomaly) : Bool :=
  severityRank a.severity ≤ severityRank b.severity

/-- `store_anomalies`: prune expired and dismissed, skip empty descriptions,
drop duplicates, append, sort by severity (critical first, stable) and keep
the first `MAX_ACTIVE_ANOMALIES = 30`. -/
def storeAnomalies (now : Nat) (existing : List Anomaly) (items : List AnomalyIn)
    (sessionId : Option Str) : List Anomaly × Nat :=
  let active0 := activeAnomaliesAt now existing
  let step := fun (acc : List Anomaly × Nat) (it : AnomalyIn) =>
    if it.description = [] then acc
    else if isDuplicateAnomaly acc.1 it.description then acc
    else (acc.1 ++ [mkAnomalyEntry now sessionId it], acc.2 + 1)
  let r := items.foldl step (active0, 0)
  let sorted := stableSort anomalyLe r.1
  (sorted.take 30, r.2)

/-- Python `needle.lower() in haystack.lower()`: contiguous substring,
case-insensitive.  The empty needle matches everything. -/
def containsSubCI (haystack needle : Str) : Bool :=
  go (pyLower needle) (pyLower haystack)
where
  /-- `needle in haystack` on already-lowered text. -/
  go (n h : Str) : Bool :=
    if n.isPrefixOf h then true
    else match h with
      | [] => false
      | _ :: t => go n t

/-- `dismiss_nudge`: mark every record whose message contains the substring
(case-insensitive); return whether any was found. -/
def dismissNudge (sub : Str) (nudges : List Nudge) : List Nudge × Bool :=
  (nudges.map fun n =>
     if containsSubCI n.message sub then { n with dismissed := true } else n,
   nudges.any fun n => containsSubCI n.message sub)

/-- `dismiss_anomaly`: the same on descriptions. -/
def dismissAnomaly (sub : Str) (anomalies : List Anomaly) : List Anomaly × Bool :=
  (anomalies.map fun a =>
     if containsSubCI a.description sub then { a with dismissed := true } else a,
   anomalies.any fun a => containsSubCI a.description sub)

/-!
### `services/chromadb_client.py` — store model

A ChromaDB deployment is a flat list of `(collection, id, document)` rows.
Metadata values are either text (`.s`) or a time instant (`.t`, modelling a
non-empty ISO timestamp; ISO strings of one format compare chronologically,
so `Nat` order is used).  The metadata cleaning of the source coerces every
value to a primitive; values are born primitive here.
-/

/-- A metadata value: text or a timestamp instant. -/
inductive MVal where
  | s (v : Str)
  | t (v : Nat)
  deriving Repr, DecidableEq

/-- Metadata: an insertion-ordered dict. -/
abbrev Meta := List (String × MVal)

/-- `meta.get(key)`. -/
def getMeta : Meta → String → Option MVal
  | [], _ => none
  | (k', v) :: t, k => if k' = k then some v else getMeta t k

/-- `meta[key] = v`: overwrite in place (keeping insertion order), or append
a new binding — Python dict assignment. -/
def setMeta : Meta → String → MVal → Meta
  | [], k, v => [(k, v)]
  | (k', w) :: t, k, v =>
    if k' = k then (k', v) :: t else (k', w) :: setMeta t k v

/-- A stored document. -/
structure Doc where
  content : Str
  metadata : Meta
  deriving Repr, DecidableEq

/-- The vector store: rows of (collection name, document id, document). -/
abbrev Store := List (String × Str × Doc)

/-- `collection.get(ids=[doc_id])` for one id. -/
def getDoc : Store → String → Str → Option Doc
  | [], _, _ => none
  | r :: t, col, docId =>
    if r.1 = col ∧ r.2.1 = docId then some r.2.2 else getDoc t col docId

/-- Replace the row at `(col, docId)`, or append it. -/
def putDoc : Store → String → Str → Doc → Store
  | [], col, docId, d => [(col, docId, d)]
  | r :: t, col, docId, d =>
    if r.1 = col ∧ r.2.1 = docId then (col, docId, d) :: t
    else r :: putDoc t col docId d

/-- `add_document`: stamp `created_at` with the write instant (overwriting a
caller-supplied value) and insert.  A duplicate id is a no-op insert
(ChromaDB skips existing embedding ids). -/
def addDocument (now : Nat) (st : Store) (col : String) (docId : Str)
    (content : Str) (metadata : Meta) : Bool × Store :=
  let meta := setMeta metadata "created_at" (MVal.t now)
  if (getDoc st col docId).isSome then (true, st)
  else (true, putDoc st col docId ⟨content, meta⟩)

/-- `upsert_document`: stamp `updated_at` with the write instant and insert
or replace. -/
def upsertDocument (now : Nat) (st : Store) (col : String) (docId : Str)
    (content : Str) (metadata : Meta) : Bool × Store :=
  let meta := setMeta metadata "updated_at" (MVal.t now)
  (true, putDoc st col docId ⟨content, meta⟩)

/-- The id `{collection}:{doc_id}:{yyyymmddhhmmss}` used by `take_snapshot`. -/
def snapshotId (col : String) (docId : Str) (now : Nat) : Str :=
  col.data ++ strOf ":" ++ docId ++ strOf ":" ++ natToStr now

/-- `take_snapshot`: copy the current document into `snapshots`, tagging
`source_collection`, `source_id` and `snapshot_at`. -/
def takeSnapshot (now : Nat) (st : Store) (col : String) (docId : Str) :
    Bool × Store :=
  match getDoc st col docId with
  | none => (false, st)
  | some d =>
    let meta1 := setMeta d.metadata "source_collection" (MVal.s col.data)
    let meta2 := setMeta meta1 "source_id" (MVal.s docId)
    let meta3 := setMeta meta2 "snapshot_at" (MVal.t now)
    addDocument now st "snapshots" (snapshotId col docId now) d.content meta3

/-!
### `config.py` collection names and `worker/triage.py`
-/

/-- The eight canonical collection names (`COLLECTIONS` keys). -/
def collectionNames : List String :=
  ["project_archive", "decisions", "failures", "entities",
   "sessions", "patterns", "snapshots", "anomalies"]

/-- `COLLECTION_ALIASES`. -/
def collectionAliases : List (String × String) :=
  [("session_history", "sessions"), ("session_summaries", "sessions"),
   ("projects", "project_archive"), ("project_history", "project_archive"),
   ("decision_log", "decisions"), ("failure_log", "failures"),
   ("error_log", "failures"), ("people", "entities"),
   ("services", "entities"), ("anomaly_log", "anomalies"),
   ("conflicts", "anomalies")]

/-- `resolve_collection_name`. -/
def resolveCollectionName (n : String) : String :=
  if n ∈ collectionNames then n
  else
    let r := ((collectionAliases.find? (fun p => p.1 = n)).map Prod.snd).getD n
    if r ∈ collectionNames then r else "project_archive"

/-- A triage item as consumed by `_archive_item`. -/
structure TriageItem where
  collection : Option String
  content : Str
  action : String
  reason : Str
  mergeTarget : Option Str
  deriving Repr, DecidableEq

/-- `worker/triage._archive_item`.  `n` is the instant of the `timestamp`
taken at entry; the two `datetime.now` calls inside `take_snapshot` and
`upsert_document` happen at `n + 1` and `n + 2` (monotone clock).  The top-1
result of `search_collection(collection, merge_target, 1)` is an external
input supplied as `searchHit = (id, content)`. -/
def archiveItem (n : Nat) (st : Store) (sessionId : Str) (item : TriageItem)
    (searchHit : Option (Str × Str)) : Bool × Store :=
  let collection := resolveCollectionName (item.collection.getD "project_archive")
  if item.content = [] then (false, st)
  else
    let docId := sessionId ++ strOf ":" ++ collection.data ++ strOf ":" ++ natToStr n
    let metadata : Meta :=
      [("session_id", MVal.s sessionId), ("action", MVal.s item.action.data),
       ("reason", MVal.s item.reason), ("source", MVal.s (strOf "triage"))]
    if item.action = "merge" then
      match item.mergeTarget with
      | some mt =>
        if mt = [] then addDocument (n + 3) st collection docId item.content metadata
        else
          let metadata1 := metadata ++ [("merge_target", MVal.s mt)]
          match searchHit with
          | some hit =>
            let r1 := takeSnapshot (n + 1) st collection hit.1
            let merged := hit.2 ++ strOf "\n\n[Updated " ++ natToStr n
                          ++ strOf "]\n" ++ item.content
            upsertDocument (n + 2) r1.2 collection hit.1 merged metadata1
          | none => addDocument (n + 3) st collection docId item.content metadata1
      | none => addDocument (n + 3) st collection docId item.content metadata
    else addDocument (n + 3) st collection docId item.content metadata

/-!
### `worker/processor.py` — the entity and pattern upserts (steps 6.5 / 8.5)
-/

/-- `ent['name'].lower().replace(' ', '-')`. -/
def slugName (name : Str) : Str :=
  (pyLower name).map (fun c => if c = ' ' then '-' else c)

/-- One iteration of the entity loop of `_process_session` (lines 213-224):
a direct `upsert_document("entities", ...)` with no prior snapshot. -/
def workerEntityUpsert (now : Nat) (st : Store) (sessionId : Str)
    (entName entType : Str) (entContext : Option Str)
    (sessionCreatedAt : Nat) (relationships : Str) : Bool × Store :=
  let docId := strOf "entity-" ++ slugName entName ++ strOf "-" ++ sessionId
  let metadata : Meta :=
    [("name", MVal.s entName), ("type", MVal.s entType),
     ("session_id", MVal.s sessionId), ("timestamp", MVal.t sessionCreatedAt),
     ("relationships", MVal.s relationships)]
  upsertDocument now st "entities" docId (entContext.getD entName) metadata

/-- One iteration of the pattern loop of `_process_session` (lines 323-331):
a direct `upsert_document("patterns", ...)` with no prior snapshot. -/
def workerPatternUpsert (now : Nat) (st : Store) (sessionId : Str)
    (patType patText : Str) (frequency : Nat) (sessionCreatedAt : Nat) :
    Bool × Store :=
  let docId := strOf "pattern-" ++ sessionId ++ strOf "-" ++ patType
  let metadata : Meta :=
    [("type", MVal.s patType), ("frequency", MVal.s (natToStr frequency)),
     ("session_id", MVal.s sessionId), ("timestamp", MVal.t sessionCreatedAt)]
  upsertDocument now st "patterns" docId patText metadata

/-- All rows of the `snapshots` collection. -/
def snapshotRows (st : Store) : Store := st.filter (fun r => r.1 = "snapshots")

/-!
### `services/retention.py`
-/

/-- Python truthiness of a metadata value (`.t` models a non-empty ISO
timestamp, hence always truthy). -/
def truthyMVal : MVal → Bool
  | MVal.s v => v ≠ []
  | MVal.t _ => true

/-- `meta.get(k)` filtered through Python `or`-chaining (falsy ⇒ skipped). -/
def getTruthy (m : Meta) (k : String) : Option MVal :=
  match getMeta m k with
  | some v => if truthyMVal v then some v else none
  | none => none

/-- `meta.get("created_at") or meta.get("timestamp") or meta.get("updated_at")`. -/
def pruneTs (m : Meta) : Option MVal :=
  match getTruthy m "created_at" with
  | some v => some v
  | none =>
    match getTruthy m "timestamp" with
    | some v => some v
    | none => getTruthy m "updated_at"

/-- The per-document decision of `prune_collection`: delete when the selected
timestamp is before the cutoff (ISO-string comparison = instant order). -/
def wouldPrune (m : Meta) (cutoff : Nat) : Bool :=
  match pruneTs m with
  | some (MVal.t v) => v < cutoff
  | some (MVal.s _) => false
  | none => false

/-- `prune_collection` restricted to its decision logic: the ids of one
collection that would be deleted for the given cutoff (the ≤500-read /
≤100-delete batching covers the same set). -/
def pruneCollectionIds (st : Store) (col : String) (cutoff : Nat) : List Str :=
  (st.filter (fun r => r.1 = col ∧ wouldPrune r.2.2.metadata cutoff)).map
    (fun r => r.2.1)

/-!
### `routers/load.py` — the response character budget (lines 157-177)

Archive hits enter the budget step as their `content` strings; the other hit
fields are untouched by it.  `budget_remaining` is a Python int, hence `Int`.
-/

/-- `MAX_LOAD_RESPONSE_CHARS` (config.py line 138). -/
def MAX_LOAD_RESPONSE_CHARS : Nat := 40000

/-- The trimming loop of `context_load`: keep a hit while more than 200
characters of budget remain, truncating an over-long hit to the remaining
budget plus a `"..."` marker; stop at the first hit that does not fit. -/
def trimHits (budget : Int) : List Str → List Str
  | [] => []
  | h :: t =>
    if 200 < budget then
      let h1 := if budget < (h.length : Int) then h.take budget.toNat ++ strOf "..." else h
      h1 :: trimHits (budget - (h1.length : Int)) t
    else []

/-- The budget-enforcement step of `context_load`: trim only when the total
exceeds `MAX_LOAD_RESPONSE_CHARS`. -/
def enforceBudget (hotContext : Str) (hits : List Str) : List Str :=
  let totalChars := hotContext.length + (hits.map List.length).sum
  if MAX_LOAD_RESPONSE_CHARS < totalChars then
    trimHits ((MAX_LOAD_RESPONSE_CHARS : Int) - (hotContext.length : Int)) hits
  else hits

/-- Response size: master context length plus all archive-hit contents. -/
def loadResponseChars (hotContext : Str) (hits : List Str) : Nat :=
  hotContext.length + (hits.map List.length).sum

/-!
### `services/integrity_checker.py` — regex scanning

`re.finditer` is embedded by a scan driver: at each position a step function
either yields a match (with the number of characters consumed after the
current one) or fails, in which case the scan advances one character.  The
step functions below hand-compile the five concrete patterns of
`extract_infrastructure_facts`, reproducing the leftmost-greedy backtracking
of the Python engine for exactly those patterns.  Fuel (`length + 1`) keeps
the recursion structural; a match always consumes at least one character.
-/

/-- Python `\w` (ASCII model). -/
def isWordChar (c : Char) : Bool := c.isAlphanum || c == '_'

/-- `\b` before the scan position, given the previous character. -/
def boundaryBefore : Option Char → Bool
  | none => true
  | some p => ¬ isWordChar p

/-- `\b` after a word character, given the remaining text. -/
def boundaryAfterStr : Str → Bool
  | [] => true
  | x :: _ => ¬ isWordChar x

/-- The character that ends a match of `1 + k` characters starting at `c`. -/
def lastConsumed (c : Char) (rest : Str) (k : Nat) : Char :=
  if k = 0 then c else rest.getD (k - 1) c

/-- The `re.finditer` driver: `step prev c rest` yields `(result, extra)`
when a match starting at `c` consumes `1 + extra` characters. -/
def scanAux {α : Type} (step : Option Char → Char → Str → Option (α × Nat)) :
    Nat → Option Char → Str → List α
  | 0, _, _ => []
  | _ + 1, _, [] => []
  | fuel + 1, prev, c :: rest =>
    match step prev c rest with
    | none => scanAux step fuel (some c) rest
    | some (a, k) => a :: scanAux step fuel (some (lastConsumed c rest k)) (rest.drop k)

/-- Run a pattern over a whole text. -/
def scan {α : Type} (step : Option Char → Char → Str → Option (α × Nat))
    (s : Str) : List α :=
  scanAux step (s.length + 1) none s

/-- One length alternative `k ∈ {5, 4}` of `\b(\d{4,5})(?::\d{2,5})?\b`:
`run` is the maximal digit run at the position, `rest` the text after the
first character. -/
def portTryLen (run rest : Str) (k : Nat) : Option (Nat × Nat) :=
  if k ≤ run.length then
    let v := digitsVal (run.take k)
    let after := rest.drop (k - 1)
    match after with
    | ':' :: r3 =>
      let d := (r3.takeWhile Char.isDigit).length
      if 2 ≤ d ∧ d ≤ 5 ∧ boundaryAfterStr (r3.drop d) then
        some (v, (k - 1) + 1 + d)
      else some (v, k - 1)
    | _ => if boundaryAfterStr after then some (v, k - 1) else none
  else none

/-- `\b(\d{4,5})(?::\d{2,5})?\b` (first ports loop), yielding the numeric
value of group 1. -/
def portStep (prev : Option Char) (c : Char) (rest : Str) : Option (Nat × Nat) :=
  if boundaryBefore prev ∧ c.isDigit then
    let run := c :: rest.takeWhile Char.isDigit
    match portTryLen run rest 5 with
    | some r => some r
    | none => portTryLen run rest 4
  else none

/-- `(\d{4,5}):(\d{2,5})` (second ports loop), yielding group 1 verbatim. -/
def portPairStep (_prev : Option Char) (c : Char) (rest : Str) :
    Option (Str × Nat) :=
  if c.isDigit then
    let run := c :: rest.takeWhile Char.isDigit
    let k := run.length
    if k = 4 ∨ k = 5 then
      match rest.drop (k - 1) with
      | ':' :: r3 =>
        let d := min 5 (r3.takeWhile Char.isDigit).length
        if 2 ≤ d then some (run, (k - 1) + 1 + d) else none
      | _ => none
    else none
  else none

/-- One octet of the IP pattern: a maximal digit run of length 1-3. -/
def ipOctet (s : Str) : Option (Str × Str) :=
  let r := s.takeWhile Char.isDigit
  if 1 ≤ r.length ∧ r.length ≤ 3 then some (r, s.drop r.length) else none

/-- `\b(\d{1,3}\.\d{1,3}\.\d{1,3}\.\d{1,3})\b`. -/
def ipStep (prev : Option Char) (c : Char) (rest : Str) : Option (Str × Nat) :=
  if boundaryBefore prev ∧ c.isDigit then
    match ipOctet (c :: rest) with
    | some (o1, s1) =>
      match s1 with
      | '.' :: s1' =>
        match ipOctet s1' with
        | some (o2, s2) =>
          match s2 with
          | '.' :: s2' =>
            match ipOctet s2' with
            | some (o3, s3) =>
              match s3 with
              | '.' :: s3' =>
                match ipOctet s3' with
                | some (o4, s4) =>
                  if boundaryAfterStr s4 then
                    let g := o1 ++ '.' :: o2 ++ '.' :: o3 ++ '.' :: o4
                    some (g, g.length - 1)
                  else none
                | none => none
              | _ => none
            | none => none
          | _ => none
        | none => none
      | _ => none
    | none => none
  else none

/-- Case-insensitive literal prefix test (the literal is given lowered). -/
def litMatchCI : Str → Str → Bool
  | [], _ => true
  | _, [] => false
  | a :: as_, b :: bs => a == b.toLower && litMatchCI as_ bs

/-- Case-sensitive literal prefix test. -/
def litMatch : Str → Str → Bool
  | [], _ => true
  | _, [] => false
  | a :: as_, b :: bs => a == b && litMatch as_ bs

/-- The quote class `` [`"] `` of the container patterns. -/
def isQuoteChar (c : Char) : Bool := c == '"' || c == Char.ofNat 96

/-- The separator class `[:\s]`. -/
def isColonSpace (c : Char) : Bool := c == ':' || pyIsSpace c

/-- The name-tail class `[a-z0-9_-]` under `re.IGNORECASE`. -/
def nameClass (c : Char) : Bool := c.isAlpha || c.isDigit || c == '-' || c == '_'

/-- The trailing class `[\s,\.]` of the first container pattern. -/
def isEndClass (c : Char) : Bool := pyIsSpace c || c == ',' || c == '.'

/-- Consume an optional quote character: `(consumed, rest)`. -/
def optQuote : Str → Nat × Str
  | x :: t => if isQuoteChar x then (1, t) else (0, x :: t)
  | [] => (0, [])

/-- `` [`"]?([a-z][a-z0-9_-]+)[`"]? `` : an optionally quoted service name of
at least two characters.  Returns `(name, consumed)`. -/
def parseNameTail (s : Str) : Option (Str × Nat) :=
  let q1 := optQuote s
  match q1.2 with
  | x :: t =>
    if x.isAlpha then
      let tr := t.takeWhile nameClass
      if tr = [] then none
      else
        let nm := x :: tr
        let s2 := t.drop tr.length
        let q2 := (optQuote s2).1
        some (nm, q1.1 + nm.length + q2)
    else none
  | [] => none

/-- `` container[:\s]+[`"]?([a-z][a-z0-9_-]+)[`"]?[\s,\.] `` (IGNORECASE). -/
def cont1Step (_prev : Option Char) (c : Char) (rest : Str) :
    Option (Str × Nat) :=
  let s := c :: rest
  if litMatchCI (strOf "container") s then
    let s1 := s.drop 9
    let sep := s1.takeWhile isColonSpace
    if sep = [] then none
    else
      let s2 := s1.drop sep.length
      match parseNameTail s2 with
      | some (nm, len) =>
        match s2.drop len with
        | y :: _ =>
          if isEndClass y then some (nm, 9 + sep.length + len + 1 - 1) else none
        | [] => none
      | none => none
  else none

/-- `` (?:docker|container)\s+(?:name\s+)?[`"]?([a-z][a-z0-9_-]+)[`"]? ``
(IGNORECASE), including the backtracking of the optional `name` group. -/
def cont2Step (_prev : Option Char) (c : Char) (rest : Str) :
    Option (Str × Nat) :=
  let s := c :: rest
  let litLen := if litMatchCI (strOf "docker") s then some 6
                else if litMatchCI (strOf "container") s then some 9
                else none
  match litLen with
  | none => none
  | some ll =>
    let s1 := s.drop ll
    let ws := s1.takeWhile pyIsSpace
    if ws = [] then none
    else
      let s2 := s1.drop ws.length
      let base := ll + ws.length
      let withName : Option (Str × Nat) :=
        if litMatchCI (strOf "name") s2 then
          let s3 := s2.drop 4
          let ws2 := s3.takeWhile pyIsSpace
          if ws2 = [] then none
          else
            match parseNameTail (s3.drop ws2.length) with
            | some (nm, len) => some (nm, base + 4 + ws2.length + len - 1)
            | none => none
        else none
      match withName with
      | some r => some r
      | none =>
        match parseNameTail s2 with
        | some (nm, len) => some (nm, base + len - 1)
        | none => none

/-- `` (?:service|stack)[:\s]+[`"]?([a-z][a-z0-9_-]+)[`"]? `` (IGNORECASE). -/
def cont3Step (_prev : Option Char) (c : Char) (rest : Str) :
    Option (Str × Nat) :=
  let s := c :: rest
  let litLen := if litMatchCI (strOf "service") s then some 7
                else if litMatchCI (strOf "stack") s then some 5
                else none
  match litLen with
  | none => none
  | some ll =>
    let s1 := s.drop ll
    let sep := s1.takeWhile isColonSpace
    if sep = [] then none
    else
      match parseNameTail (s1.drop sep.length) with
      | some (nm, len) => some (nm, ll + sep.length + len - 1)
      | none => none

/-- The allowed domain roots, lowered, with their lengths. -/
def domainRoots : List Str :=
  [strOf "millyweb.com", strOf "dartai.com", strOf "github.com", strOf "openrouter.ai"]

/-- First allowed root that case-insensitively heads `s`; returns its length. -/
def rootMatch (s : Str) : Option Nat :=
  (domainRoots.find? (fun r => litMatchCI r s)).map List.length

/-- The trailing class `[/\w.-]` of the domain pattern. -/
def domTrailClass (c : Char) : Bool := c == '/' || isWordChar c || c == '.' || c == '-'

/-- `[a-z0-9][-a-z0-9]*\.(?:roots)[/\w.-]*` : the capture group of the
domain pattern.  Returns `(group, consumed)`. -/
def domainCore (s : Str) : Option (Str × Nat) :=
  match s with
  | x :: t =>
    if x.isAlphanum then
      let lab := t.takeWhile (fun c => c.isAlphanum || c == '-')
      match t.drop lab.length with
      | '.' :: s2 =>
        match rootMatch s2 with
        | some rlen =>
          let actualRoot := s2.take rlen
          let trail := (s2.drop rlen).takeWhile domTrailClass
          let g := x :: lab ++ '.' :: (actualRoot ++ trail)
          some (g, g.length)
        | none => none
      | _ => none
    else none
  | [] => none

/-- `(?:https?://)?([a-z0-9][-a-z0-9]*\.(?:millyweb\.com|dartai\.com|github\.com|openrouter\.ai)[/\w.-]*)` (IGNORECASE). -/
def domainStep (_prev : Option Char) (c : Char) (rest : Str) :
    Option (Str × Nat) :=
  let s := c :: rest
  let plen := if litMatchCI (strOf "https://") s then 8
              else if litMatchCI (strOf "http://") s then 7
              else 0
  match domainCore (s.drop plen) with
  | some (g, glen) => some (g, plen + glen - 1)
  | none => if plen = 0 then none else
      match domainCore s with
      | some (g, glen) => some (g, glen - 1)
      | none => none

/-- The post-processing of a matched domain: strip trailing slashes and dots,
then keep only the part before the first `/`. -/
def domainPost (g : Str) : Str :=
  let g1 := (g.reverse.dropWhile (fun c => c == '/')).reverse
  let g2 := (g1.reverse.dropWhile (fun c => c == '.')).reverse
  if '/' ∈ g2 then g2.takeWhile (fun c => ¬ c = '/') else g2

/-- `` (?:project|system|platform)[:\s]+[`"]?([A-Z][A-Za-z]+(?:\s[A-Z][A-Za-z]+)?)[`"]? `` (case-sensitive). -/
def projStep1 (_prev : Option Char) (c : Char) (rest : Str) :
    Option (Str × Nat) :=
  let s := c :: rest
  let litLen := if litMatch (strOf "project") s then some 7
                else if litMatch (strOf "system") s then some 6
                else if litMatch (strOf "platform") s then some 8
                else none
  match litLen with
  | none => none
  | some ll =>
    let s1 := s.drop ll
    let sep := s1.takeWhile isColonSpace
    if sep = [] then none
    else
      let q1 := optQuote (s1.drop sep.length)
      match q1.2 with
      | x :: t =>
        if x.isUpper then
          let w1t := t.takeWhile Char.isAlpha
          if w1t = [] then none
          else
            let w1 := x :: w1t
            let s4 := t.drop w1t.length
            let second : Option (Char × Str) :=
              match s4 with
              | sp :: y :: t2 =>
                if pyIsSpace sp ∧ y.isUpper then
                  let w2t := t2.takeWhile Char.isAlpha
                  if w2t = [] then none else some (sp, y :: w2t)
                else none
              | _ => none
            let grp := match second with
              | some (sp, w2) => w1 ++ sp :: w2
              | none => w1
            let s5 := match second with
              | some (_, w2) => s4.drop (1 + w2.length)
              | none => s4
            let q2 := (optQuote s5).1
            some (grp, ll + sep.length + q1.1 + grp.length + q2 - 1)
        else none
      | [] => none

/-- `\b(ContextEngine|MillyExt|MCP\s*Provisioner|Zipline|MinIO|Jerry|OpenClaw)\b`
(case-sensitive). -/
def projStep2 (prev : Option Char) (c : Char) (rest : Str) :
    Option (Str × Nat) :=
  if boundaryBefore prev then
    let s := c :: rest
    let tryLit := fun (l : Str) =>
      if litMatch l s ∧ boundaryAfterStr (s.drop l.length) then
        some (s.take l.length, l.length - 1)
      else none
    let tryMCP : Option (Str × Nat) :=
      if litMatch (strOf "MCP") s then
        let s1 := s.drop 3
        let ws := s1.takeWhile pyIsSpace
        let total := 3 + ws.length + 11
        if litMatch (strOf "Provisioner") (s1.drop ws.length)
           ∧ boundaryAfterStr (s.drop total) then
          some (s.take total, total - 1)
        else none
      else none
    match tryLit (strOf "ContextEngine") with
    | some r => some r
    | none =>
    match tryLit (strOf "MillyExt") with
    | some r => some r
    | none =>
    match tryMCP with
    | some r => some r
    | none =>
    match tryLit (strOf "Zipline") with
    | some r => some r
    | none =>
    match tryLit (strOf "MinIO") with
    | some r => some r
    | none =>
    match tryLit (strOf "Jerry") with
    | some r => some r
    | none => tryLit (strOf "OpenClaw")
  else none

/-- `_CONTAINER_STOPWORDS`. -/
def containerStopwords : List Str :=
  [strOf "the", strOf "and", strOf "for", strOf "not", strOf "are", strOf "was",
   strOf "has", strOf "into", strOf "from", strOf "with", strOf "that",
   strOf "this", strOf "will", strOf "can", strOf "but", strOf "all",
   strOf "its", strOf "port", strOf "ports", strOf "points", strOf "point",
   strOf "network", strOf "networks", strOf "image", strOf "service",
   strOf "stack", strOf "compose", strOf "docker", strOf "container",
   strOf "build", strOf "custom", strOf "latest", strOf "alpine",
   strOf "active", strOf "new", strOf "production", strOf "deployed",
   strOf "enabled", strOf "migrated", strOf "complete", strOf "pending",
   strOf "running", strOf "healthy", strOf "ready", strOf "live",
   strOf "name", strOf "status", strOf "phase", strOf "version",
   strOf "current", strOf "next", strOf "steps", strOf "used",
   strOf "base", strOf "lifecycle", strOf "management", strOf "system",
   strOf "bridge", strOf "pipeline", strOf "endpoint", strOf "module",
   strOf "worker", strOf "router"]

/-- `name.strip('`"\'')`. -/
def stripQuotesApos (s : Str) : Str :=
  let cls := fun (c : Char) => isQuoteChar c || c == Char.ofNat 39
  ((s.dropWhile cls).reverse.dropWhile cls).reverse

/-- `s.startswith(c)` for one character. -/
def startsWithChar (s : Str) (c : Char) : Bool :=
  match s with
  | x :: _ => x == c
  | [] => false

/-- The filter applied to each matched container name. -/
def containerNameOk (nm : Str) : Bool :=
  2 < nm.length ∧ nm ∉ containerStopwords
  ∧ ¬ startsWithChar nm '-' ∧ ¬ startsWithChar nm '|'
  ∧ ¬ (nm ≠ [] ∧ nm.all (fun c => c == '-' || c == '|'))

/-- The six fact sets of `extract_infrastructure_facts` (`services` is never
populated by the source). -/
structure Facts where
  ports : List Str
  containers : List Str
  domains : List Str
  projects : List Str
  ips : List Str
  services : List Str
  deriving Repr, DecidableEq

/-- The range filter of the first ports loop. -/
def portInRange (v : Nat) : Bool :=
  1024 ≤ v ∧ v ≤ 65535 ∧ ¬ (2020 ≤ v ∧ v ≤ 2035)

/-- `extract_infrastructure_facts`.  Sets are deduplicated lists. -/
def extractInfrastructureFacts (text : Str) : Facts :=
  let ports1 := (scan portStep text).filterMap
    (fun v => if portInRange v then some (natToStr v) else none)
  let ports2 := scan portPairStep text
  let contRaw := scan cont1Step text ++ scan cont2Step text ++ scan cont3Step text
  let contNames := contRaw.map (fun nm => pyLower (stripQuotesApos nm))
  { ports := (ports1 ++ ports2).dedup
    containers := (contNames.filter containerNameOk).dedup
    domains := ((scan domainStep text).map domainPost).dedup
    projects := ((scan projStep1 text ++ scan projStep2 text).map pyStrip).dedup
    ips := (scan ipStep text).dedup
    services := [] }

/-- Set difference `pre_facts[cat] - post_facts[cat]`. -/
def setDiff (a b : List Str) : List Str := a.dedup.filter (fun x => x ∉ b)

/-- The result of `check_integrity`. -/
structure IntegrityResult where
  passed : Bool
  dropCount : Nat
  severity : String
  deriving Repr, DecidableEq

/-- `check_integrity`: per-category drops `pre − post` and the proportional
severity rule (KB facts are reference only and never merged into `pre`). -/
def checkIntegrity (pre post : Str) : IntegrityResult :=
  let pf := extractInfrastructureFacts pre
  let qf := extractInfrastructureFacts post
  let dPorts := setDiff pf.ports qf.ports
  let dContainers := setDiff pf.containers qf.containers
  let dDomains := setDiff pf.domains qf.domains
  let dProjects := setDiff pf.projects qf.projects
  let dIps := setDiff pf.ips qf.ips
  let dServices := setDiff pf.services qf.services
  let total := dPorts.length + dContainers.length + dDomains.length
               + dProjects.length + dIps.length + dServices.length
  let severity :=
    if total = 0 then "none"
    else if dIps ≠ [] ∨ 3 ≤ dPorts.length ∨ 3 ≤ dContainers.length then "high"
    else if dPorts ≠ [] ∨ dContainers ≠ [] ∨ dDomains ≠ [] then "medium"
    else if dProjects ≠ [] then "low"
    else "low"
  { passed := total = 0, dropCount := total, severity := severity }

/-!
### `worker/processor.py` — the integrity-gated master write (lines 231-263)
-/

/-- The snapshot id `snap-{trigger}-{int(time.time())}` of `_take_snapshot`. -/
def workerSnapshotId (trigger : Str) (t : Nat) : Str :=
  strOf "snap-" ++ trigger ++ strOf "-" ++ natToStr t

/-- Outcome of the master-context update step. -/
structure MasterStepResult where
  wrote : Bool
  storedMaster : Str
  blockedSnapId : Option Str
  deriving Repr, DecidableEq

/-- Step 7 of `_process_session`: run `check_integrity(current, draft)`;
on a failed check of severity `high`, veto the write and snapshot the draft
under `{session_id}-blocked`; otherwise write the draft through the context
store. -/
def masterUpdateStep (sessionId pre draft : Str) (t : Nat) : MasterStepResult :=
  let integrity := checkIntegrity pre draft
  if ¬ integrity.passed then
    if integrity.severity = "high" then
      { wrote := false, storedMaster := pre,
        blockedSnapId := some (workerSnapshotId (sessionId ++ strOf "-blocked") t) }
    else { wrote := true, storedMaster := draft, blockedSnapId := none }
  else { wrote := true, storedMaster := draft, blockedSnapId := none }

/-!
## Theorems

Shared lemmas first, then the claim theorems C1-C10 with their witnesses and
counterexamples.
-/

/-- A refused `can_proceed` leaves the breaker unchanged. -/
theorem canProceed_false_state (b : CircuitBreaker) (now : Nat)
    (h : (canProceed b now).1 = false) : (canProceed b now).2 = b := by
  unfold canProceed at *
  split_ifs at h ⊢
  all_goals simp_all

/-- `record_failure` always bumps the count and stamps the instant. -/
theorem recordFailure_fields (b : CircuitBreaker) (now : Nat) :
    (recordFailure b now).failureCount = b.failureCount + 1
    ∧ (recordFailure b now).lastFailureTime = now
    ∧ (recordFailure b now).failureThreshold = b.failureThreshold := by
  simp only [recordFailure]
  split_ifs <;> simp

/-- Claim C4: the circuit-breaker state machine.  The claimed transitions
hold, except that in half-open `can_call` keeps returning true on every call
until a success or failure is recorded (not exactly once).  This theorem
proves the amended machine: closed always allows; closed → open once the
bumped failure count reaches the threshold; open → half-open (allowing the
call) when the recovery timeout has elapsed, and open refuses before that;
half-open allows every call; success closes from any state; a failure in
half-open (where the count, never reset since opening, is at least the
threshold) re-opens. -/
theorem C4_breaker_transitions :
    (∀ (b : CircuitBreaker) (now : Nat), b.state = "closed" →
       (canProceed b now).1 = true)
  ∧ (∀ (b : CircuitBreaker) (now : Nat), b.state = "closed" →
       b.failureThreshold ≤ b.failureCount + 1 →
       (recordFailure b now).state = "open")
  ∧ (∀ (b : CircuitBreaker) (now : Nat), b.state = "open" →
       b.recoveryTimeout ≤ now - b.lastFailureTime →
       canProceed b now = (true, { b with state := "half_open" }))
  ∧ (∀ (b : CircuitBreaker) (now : Nat), b.state = "open" →
       now - b.lastFailureTime < b.recoveryTimeout →
       (canProceed b now).1 = false)
  ∧ (∀ (b : CircuitBreaker) (now : Nat), b.state = "half_open" →
       (canProceed b now).1 = true)
  ∧ (∀ b : CircuitBreaker, (recordSuccess b).state = "closed")
  ∧ (∀ (b : CircuitBreaker) (now : Nat), b.state = "half_open" →
       b.failureThreshold ≤ b.failureCount + 1 →
       (recordFailure b now).state = "open") := by
  refine ⟨?_, ?_, ?_, ?_, ?_, ?_, ?_⟩
  · intro b now h
    simp [canProceed, h]
  · intro b now h hcnt
    simp [recordFailure, hcnt]
  · intro b now h htime
    have hne : b.state ≠ "closed" := by simp [h]
    simp [canProceed, h, hne, htime]
  · intro b now h htime
    have hne : b.state ≠ "closed" := by simp [h]
    simp [canProceed, h, hne, Nat.not_le.mpr htime]
  · intro b now h
    have h1 : b.state ≠ "closed" := by simp [h]
    have h2 : b.state ≠ "open" := by simp [h]
    simp [canProceed, h1, h2]
  · intro b
    simp [recordSuccess]
  · intro b now h hcnt
    simp [recordFailure, hcnt]

/-- Witness for C4: each transition of the amended machine at a concrete
breaker. -/
theorem C4_breaker_transitions_witness :
    (canProceed ⟨3, 120, 0, 0, "closed"⟩ 5).1 = true
    ∧ (recordFailure ⟨3, 120, 2, 0, "closed"⟩ 9).state = "open"
    ∧ canProceed ⟨3, 120, 3, 0, "open"⟩ 120 = (true, ⟨3, 120, 3, 0, "half_open"⟩)
    ∧ (canProceed ⟨3, 120, 3, 100, "open"⟩ 150).1 = false
    ∧ (canProceed ⟨3, 120, 3, 0, "half_open"⟩ 0).1 = true
    ∧ (recordSuccess ⟨3, 120, 3, 0, "half_open"⟩).state = "closed"
    ∧ (recordFailure ⟨3, 120, 3, 0, "half_open"⟩ 7).state = "open" :=
  ⟨C4_breaker_transitions.1 ⟨3, 120, 0, 0, "closed"⟩ 5 rfl,
   C4_breaker_transitions.2.1 ⟨3, 120, 2, 0, "closed"⟩ 9 rfl (by decide),
   C4_breaker_transitions.2.2.1 ⟨3, 120, 3, 0, "open"⟩ 120 rfl (by decide),
   C4_breaker_transitions.2.2.2.1 ⟨3, 120, 3, 100, "open"⟩ 150 rfl (by decide),
   C4_breaker_transitions.2.2.2.2.1 ⟨3, 120, 3, 0, "half_open"⟩ 0 rfl,
   C4_breaker_transitions.2.2.2.2.2.1 ⟨3, 120, 3, 0, "half_open"⟩,
   C4_breaker_transitions.2.2.2.2.2.2 ⟨3, 120, 3, 0, "half_open"⟩ 7 rfl (by decide)⟩

/-- Counterexample for C4: once the breaker has moved open → half-open, a
second `can_call` before any recorded success or failure still returns true,
contradicting "can_call returns true exactly once in half-open". -/
theorem C4_counterexample :
    (canProceed ⟨3, 120, 3, 0, "open"⟩ 120).1 = true
    ∧ ((canProceed ⟨3, 120, 3, 0, "open"⟩ 120).2).state = "half_open"
    ∧ (canProceed ((canProceed ⟨3, 120, 3, 0, "open"⟩ 120).2) 120).1 = true := by
  decide

/-- Claim C3 (amended): a model-client call made while `can_call("openrouter")`
is false returns null without any outbound attempt (the result does not
depend on `proceed`), but it DOES record a dependency failure: the gate
calls `mark_unhealthy`, so the breaker's failure count increases by one and
its last-failure instant moves to now. -/
theorem C3_gated_call {α : Type} (proceed : DM → Option α × DM) (dm : DM) (now : Nat)
    (h : (canCallOpenrouter dm now).1 = false) :
    clientCallGated proceed dm now
      = (none, markUnhealthyOpenrouter dm "circuit breaker open" now)
    ∧ ((clientCallGated proceed dm now).2).orBreaker.failureCount
        = dm.orBreaker.failureCount + 1
    ∧ ((clientCallGated proceed dm now).2).orBreaker.lastFailureTime = now
    ∧ ((clientCallGated proceed dm now).2).orHealthy = false := by
  have hb : (canProceed dm.orBreaker now).1 = false := by
    simpa [canCallOpenrouter] using h
  have hst : (canProceed dm.orBreaker now).2 = dm.orBreaker :=
    canProceed_false_state _ _ hb
  have hmain : clientCallGated proceed dm now
      = (none, markUnhealthyOpenrouter dm "circuit breaker open" now) := by
    simp [clientCallGated, canCallOpenrouter, hb, hst, markUnhealthyOpenrouter]
  refine ⟨hmain, ?_, ?_, ?_⟩ <;>
    simp [hmain, markUnhealthyOpenrouter, recordFailure_fields]

/-- Witness for C3: the gated call at a concrete open breaker. -/
theorem C3_gated_call_witness :
    clientCallGated (fun d => (some 0, d))
        ⟨none, 0, "none", ⟨3, 120, 3, 100, "open"⟩, true, none,
         ⟨3, 30, 0, 0, "closed"⟩, true, none⟩ 150
      = (none, markUnhealthyOpenrouter
          ⟨none, 0, "none", ⟨3, 120, 3, 100, "open"⟩, true, none,
           ⟨3, 30, 0, 0, "closed"⟩, true, none⟩ "circuit breaker open" 150) :=
  (C3_gated_call (fun d => (some 0, d))
    ⟨none, 0, "none", ⟨3, 120, 3, 100, "open"⟩, true, none,
     ⟨3, 30, 0, 0, "closed"⟩, true, none⟩ 150 (by decide)).1

/-- Counterexample for C3: while `can_call("openrouter")` is false the call
does return null, but the breaker is NOT left unchanged: its failure count
goes from 3 to 4 and its last-failure instant from 100 to 150. -/
theorem C3_counterexample :
    (canCallOpenrouter
       ⟨none, 0, "none", ⟨3, 120, 3, 100, "open"⟩, true, none,
        ⟨3, 30, 0, 0, "closed"⟩, true, none⟩ 150).1 = false
    ∧ (clientCallGated (fun d => (some 0, d))
        ⟨none, 0, "none", ⟨3, 120, 3, 100, "open"⟩, true, none,
         ⟨3, 30, 0, 0, "closed"⟩, true, none⟩ 150).1 = none
    ∧ ((clientCallGated (fun d => (some 0, d))
        ⟨none, 0, "none", ⟨3, 120, 3, 100, "open"⟩, true, none,
         ⟨3, 30, 0, 0, "closed"⟩, true, none⟩ 150).2).orBreaker.failureCount = 4
    ∧ ((clientCallGated (fun d => (some 0, d))
        ⟨none, 0, "none", ⟨3, 120, 3, 100, "open"⟩, true, none,
         ⟨3, 30, 0, 0, "closed"⟩, true, none⟩ 150).2).orBreaker.lastFailureTime = 150 := by
  decide

/-- A passed integrity check reports severity "none". -/
theorem checkIntegrity_passed_severity (pre post : Str)
    (h : (checkIntegrity pre post).passed = true) :
    (checkIntegrity pre post).severity = "none" := by
  unfold checkIntegrity at *
  simp only [decide_eq_true_eq] at h
  simp [h]

/-- Claim C1: the worker writes the compressed draft only when
`check_integrity(current, draft)` does not report severity high; whenever it
does, the draft is not written, the previous master remains stored, and a
draft snapshot is taken under an id containing "-blocked". -/
theorem C1_integrity_gate (sessionId pre draft : Str) (t : Nat) :
    ((masterUpdateStep sessionId pre draft t).wrote = true →
       (checkIntegrity pre draft).severity ≠ "high")
  ∧ ((checkIntegrity pre draft).severity = "high" →
       (masterUpdateStep sessionId pre draft t).wrote = false
       ∧ (masterUpdateStep sessionId pre draft t).storedMaster = pre
       ∧ ∃ sid, (masterUpdateStep sessionId pre draft t).blockedSnapId = some sid
            ∧ ∃ l r, sid = l ++ strOf "-blocked" ++ r) := by
  by_cases hp : (checkIntegrity pre draft).passed = true
  · have hs := checkIntegrity_passed_severity pre draft hp
    constructor
    · intro _
      simp [hs]
    · intro hhigh
      rw [hs] at hhigh
      exact absurd hhigh (by decide)
  · by_cases hh : (checkIntegrity pre draft).severity = "high"
    · have hstep : masterUpdateStep sessionId pre draft t
          = { wrote := false, storedMaster := pre,
              blockedSnapId :=
                some (workerSnapshotId (sessionId ++ strOf "-blocked") t) } := by
        simp [masterUpdateStep, hp, hh]
      refine ⟨?_, fun _ => ⟨by simp [hstep], by simp [hstep], ?_⟩⟩
      · intro hw
        rw [hstep] at hw
        simp at hw
      · refine ⟨workerSnapshotId (sessionId ++ strOf "-blocked") t, by simp [hstep],
          strOf "snap-" ++ sessionId, strOf "-" ++ natToStr t, ?_⟩
        simp [workerSnapshotId, strOf]
    · have hstep : masterUpdateStep sessionId pre draft t
          = { wrote := true, storedMaster := draft, blockedSnapId := none } := by
        simp [masterUpdateStep, hp, hh]
      exact ⟨fun _ => hh, fun hhigh => absurd hhigh hh⟩

/-- Witness for C1: a master mentioning an IP address compressed into a draft
that drops it is severity high, the write is vetoed and the stored master is
the pre-compression text. -/
theorem C1_integrity_gate_witness :
    (checkIntegrity (strOf "ip 10.0.0.1 here") (strOf "x")).severity = "high"
    ∧ (masterUpdateStep (strOf "s1") (strOf "ip 10.0.0.1 here") (strOf "x") 7).wrote = false
    ∧ (masterUpdateStep (strOf "s1") (strOf "ip 10.0.0.1 here") (strOf "x") 7).storedMaster
        = strOf "ip 10.0.0.1 here" :=
  ⟨by decide,
   ((C1_integrity_gate (strOf "s1") (strOf "ip 10.0.0.1 here") (strOf "x") 7).2
      (by decide)).1,
   ((C1_integrity_gate (strOf "s1") (strOf "ip 10.0.0.1 here") (strOf "x") 7).2
      (by decide)).2.1⟩

/-- Claim C5 (amended): every element of the extracted `ports` set either
comes from the plain-port pattern — and is then the decimal rendering of a
value in 1024-65535 outside 2020-2035 — or is the host side of a
`host:container` match of the second loop, which is added with no range or
exclusion check at all. -/
theorem C5_ports_range (text p : Str)
    (hp : p ∈ (extractInfrastructureFacts text).ports) :
    (∃ v, p = natToStr v ∧ 1024 ≤ v ∧ v ≤ 65535 ∧ ¬ (2020 ≤ v ∧ v ≤ 2035))
    ∨ p ∈ scan portPairStep text := by
  unfold extractInfrastructureFacts at hp
  simp only [List.mem_dedup, List.mem_append] at hp
  rcases hp with h | h
  · left
    simp only [List.mem_filterMap] at h
    obtain ⟨v, _, hev⟩ := h
    by_cases hr : portInRange v = true
    · rw [if_pos hr] at hev
      have hprops := hr
      simp only [portInRange, Bool.and_eq_true, decide_eq_true_eq,
        Bool.not_eq_true', decide_eq_false_iff_not] at hprops
      exact ⟨v, (Option.some.injEq _ _ ▸ hev).symm, hprops.1, hprops.2.1, hprops.2.2⟩
    · rw [if_neg hr] at hev
      exact absurd hev (by simp)
  · exact Or.inr h

/-- Witness for C5: "p 8080" yields port "8080", satisfying the range rule. -/
theorem C5_ports_range_witness :
    strOf "8080" ∈ (extractInfrastructureFacts (strOf "p 8080")).ports
    ∧ ((∃ v, strOf "8080" = natToStr v ∧ 1024 ≤ v ∧ v ≤ 65535
          ∧ ¬ (2020 ≤ v ∧ v ≤ 2035))
       ∨ strOf "8080" ∈ scan portPairStep (strOf "p 8080")) :=
  ⟨by decide, C5_ports_range (strOf "p 8080") (strOf "8080") (by decide)⟩

/-- Counterexample for C5: on "2020:80" the host-side loop adds "2020" to the
ports set although 2020 lies in the excluded range 2020-2035. -/
theorem C5_counterexample :
    strOf "2020" ∈ (extractInfrastructureFacts (strOf "2020:80")).ports
    ∧ digitsVal (strOf "2020") = 2020
    ∧ ¬ (1024 ≤ digitsVal (strOf "2020") ∧ digitsVal (strOf "2020") ≤ 65535
         ∧ ¬ (2020 ≤ digitsVal (strOf "2020") ∧ digitsVal (strOf "2020") ≤ 2035)) := by
  refine ⟨by decide, by decide, ?_⟩
  intro h
  exact h.2.2 ⟨by decide, by decide⟩

/-- `meta[k] = v` then `meta.get(k)` gives `v`. -/
theorem getMeta_setMeta_self (m : Meta) (k : String) (v : MVal) :
    getMeta (setMeta m k v) k = some v := by
  induction m with
  | nil => simp [setMeta, getMeta]
  | cons p t ih =>
    obtain ⟨k', w⟩ := p
    by_cases hp : k' = k
    · simp [setMeta, getMeta, hp]
    · simp [setMeta, getMeta, hp, ih]

/-- Setting a different key leaves a lookup unchanged. -/
theorem getMeta_setMeta_other (m : Meta) (k k' : String) (v : MVal)
    (hne : k' ≠ k) : getMeta (setMeta m k' v) k = getMeta m k := by
  have hne' : k ≠ k' := Ne.symm hne
  induction m with
  | nil => simp [setMeta, getMeta, hne]
  | cons p t ih =>
    obtain ⟨k0, w⟩ := p
    by_cases hp : k0 = k'
    · subst hp
      simp [setMeta, getMeta, hne]
    · by_cases hpk : k0 = k
      · simp [setMeta, getMeta, hp, hpk, hne']
      · simp [setMeta, getMeta, hp, hpk, ih]

/-- Reading back the row just written by `putDoc`. -/
theorem getDoc_putDoc_self (st : Store) (col : String) (docId : Str) (d : Doc) :
    getDoc (putDoc st col docId d) col docId = some d := by
  induction st with
  | nil => simp [putDoc, getDoc]
  | cons r t ih =>
    by_cases hr : r.1 = col ∧ r.2.1 = docId
    · simp [putDoc, getDoc, hr]
    · simp [putDoc, getDoc, hr, ih]

/-- `putDoc` at another key leaves a lookup unchanged. -/
theorem getDoc_putDoc_other (st : Store) (col col' : String) (docId docId' : Str)
    (d : Doc) (hne : ¬ (col' = col ∧ docId' = docId)) :
    getDoc (putDoc st col' docId' d) col docId = getDoc st col docId := by
  have hne' : ¬ (col = col' ∧ docId = docId') := fun h => hne ⟨h.1.symm, h.2.symm⟩
  induction st with
  | nil => simp [putDoc, getDoc, hne]
  | cons r t ih =>
    by_cases hr : r.1 = col' ∧ r.2.1 = docId'
    · have hrr : ¬ (r.1 = col ∧ r.2.1 = docId) := by
        rintro ⟨h1, h2⟩
        exact hne ⟨hr.1.symm.trans h1, hr.2.symm.trans h2⟩
      simp [putDoc, getDoc, hr, hne, hne', hrr]
    · by_cases hrc : r.1 = col ∧ r.2.1 = docId
      · simp [putDoc, getDoc, hr, hrc, hne']
      · simp [putDoc, getDoc, hr, hrc, ih]

/-- Claim C2 (amended): the triage merge path does snapshot before
overwriting — after a merge of a found hit, the `snapshots` collection holds
a copy of the overwritten document whose `source_collection` / `source_id`
match it and whose `snapshot_at` is not later than the write's `updated_at`.
(The worker's entity and pattern upserts, by contrast, overwrite without any
snapshot — see the counterexample.) -/
theorem C2_merge_snapshot (n : Nat) (st : Store) (sessionId : Str)
    (item : TriageItem) (hid : Str) (d : Doc) (col : String) (mt : Str)
    (hcol : col = resolveCollectionName (item.collection.getD "project_archive"))
    (hcontent : item.content ≠ [])
    (hact : item.action = "merge")
    (hmt : item.mergeTarget = some mt) (hmtne : mt ≠ [])
    (hdoc : getDoc st col hid = some d)
    (hsnapcol : col ≠ "snapshots")
    (hfresh : getDoc st "snapshots" (snapshotId col hid (n + 1)) = none) :
    ∃ sd wd : Doc,
      getDoc (archiveItem n st sessionId item (some (hid, d.content))).2
          "snapshots" (snapshotId col hid (n + 1)) = some sd
      ∧ getMeta sd.metadata "source_collection" = some (MVal.s col.data)
      ∧ getMeta sd.metadata "source_id" = some (MVal.s hid)
      ∧ getMeta sd.metadata "snapshot_at" = some (MVal.t (n + 1))
      ∧ sd.content = d.content
      ∧ getDoc (archiveItem n st sessionId item (some (hid, d.content))).2
          col hid = some wd
      ∧ getMeta wd.metadata "updated_at" = some (MVal.t (n + 2))
      ∧ n + 1 ≤ n + 2 := by
  set sid := snapshotId col hid (n + 1) with hsid
  have hsnap : takeSnapshot (n + 1) st col hid
      = (true, putDoc st "snapshots" sid
          ⟨d.content,
           setMeta (setMeta (setMeta (setMeta d.metadata
               "source_collection" (MVal.s col.data))
             "source_id" (MVal.s hid)) "snapshot_at" (MVal.t (n + 1)))
             "created_at" (MVal.t (n + 1))⟩) := by
    simp [takeSnapshot, hdoc, addDocument, ← hsid, hfresh]
  have harch : (archiveItem n st sessionId item (some (hid, d.content))).2
      = putDoc (takeSnapshot (n + 1) st col hid).2 col hid
          ⟨d.content ++ strOf "\n\n[Updated " ++ natToStr n
             ++ strOf "]\n" ++ item.content,
           setMeta
             ([("session_id", MVal.s sessionId), ("action", MVal.s item.action.data),
               ("reason", MVal.s item.reason), ("source", MVal.s (strOf "triage"))]
              ++ [("merge_target", MVal.s mt)])
             "updated_at" (MVal.t (n + 2))⟩ := by
    simp [archiveItem, hact, hmt, hmtne, hcontent, ← hcol, upsertDocument]
  refine ⟨⟨d.content,
      setMeta (setMeta (setMeta (setMeta d.metadata
          "source_collection" (MVal.s col.data))
        "source_id" (MVal.s hid)) "snapshot_at" (MVal.t (n + 1)))
        "created_at" (MVal.t (n + 1))⟩,
    ⟨d.content ++ strOf "\n\n[Updated " ++ natToStr n
       ++ strOf "]\n" ++ item.content,
     setMeta
       ([("session_id", MVal.s sessionId), ("action", MVal.s item.action.data),
         ("reason", MVal.s item.reason), ("source", MVal.s (strOf "triage"))]
        ++ [("merge_target", MVal.s mt)])
       "updated_at" (MVal.t (n + 2))⟩, ?_, ?_, ?_, ?_, rfl, ?_, ?_, by omega⟩
  · rw [harch, hsnap]
    rw [getDoc_putDoc_other _ _ _ _ _ _ (fun h => hsnapcol h.1)]
    exact getDoc_putDoc_self _ _ _ _
  · rw [getMeta_setMeta_other _ _ _ _ (by decide),
        getMeta_setMeta_other _ _ _ _ (by decide),
        getMeta_setMeta_other _ _ _ _ (by decide)]
    exact getMeta_setMeta_self _ _ _
  · rw [getMeta_setMeta_other _ _ _ _ (by decide),
        getMeta_setMeta_other _ _ _ _ (by decide)]
    exact getMeta_setMeta_self _ _ _
  · rw [getMeta_setMeta_other _ _ _ _ (by decide)]
    exact getMeta_setMeta_self _ _ _
  · rw [harch]
    exact getDoc_putDoc_self _ _ _ _
  · exact getMeta_setMeta_self _ _ _

/-- Witness for C2: a concrete merge into `decisions` — the snapshot row is
present with the matching source fields. -/
theorem C2_merge_snapshot_witness :
    ∃ sd wd : Doc,
      getDoc (archiveItem 0 [("decisions", strOf "d1", ⟨strOf "old text", []⟩)]
          (strOf "s9")
          ⟨some "decisions", strOf "new stuff", "merge", strOf "why",
           some (strOf "target")⟩
          (some (strOf "d1", strOf "old text"))).2
        "snapshots" (snapshotId "decisions" (strOf "d1") 1) = some sd
      ∧ getMeta sd.metadata "source_collection" = some (MVal.s (String.data "decisions"))
      ∧ getMeta sd.metadata "source_id" = some (MVal.s (strOf "d1"))
      ∧ getMeta sd.metadata "snapshot_at" = some (MVal.t 1)
      ∧ sd.content = strOf "old text"
      ∧ getDoc (archiveItem 0 [("decisions", strOf "d1", ⟨strOf "old text", []⟩)]
          (strOf "s9")
          ⟨some "decisions", strOf "new stuff", "merge", strOf "why",
           some (strOf "target")⟩
          (some (strOf "d1", strOf "old text"))).2
        "decisions" (strOf "d1") = some wd
      ∧ getMeta wd.metadata "updated_at" = some (MVal.t 2)
      ∧ 0 + 1 ≤ 0 + 2 :=
  C2_merge_snapshot 0 [("decisions", strOf "d1", ⟨strOf "old text", []⟩)]
    (strOf "s9")
    ⟨some "decisions", strOf "new stuff", "merge", strOf "why", some (strOf "target")⟩
    (strOf "d1") ⟨strOf "old text", []⟩ "decisions" (strOf "target")
    (by decide) (by decide) rfl rfl (by decide) (by decide) (by decide) (by decide)

/-- Counterexample for C2: the worker's entity upsert overwrites an existing
`entities` document and inserts no snapshot row at all. -/
theorem C2_counterexample :
    (getDoc [("entities", strOf "entity-redis-cache-s1",
        ⟨strOf "old", [("created_at", MVal.t 1)]⟩)]
      "entities" (strOf "entity-redis-cache-s1")).isSome = true
    ∧ (getDoc (workerEntityUpsert 5
        [("entities", strOf "entity-redis-cache-s1",
          ⟨strOf "old", [("created_at", MVal.t 1)]⟩)]
        (strOf "s1") (strOf "Redis Cache") (strOf "service")
        (some (strOf "new ctx")) 3 (strOf "")).2
        "entities" (strOf "entity-redis-cache-s1")).map Doc.content
      = some (strOf "new ctx")
    ∧ snapshotRows [("entities", strOf "entity-redis-cache-s1",
        ⟨strOf "old", [("created_at", MVal.t 1)]⟩)] = []
    ∧ snapshotRows (workerEntityUpsert 5
        [("entities", strOf "entity-redis-cache-s1",
          ⟨strOf "old", [("created_at", MVal.t 1)]⟩)]
        (strOf "s1") (strOf "Redis Cache") (strOf "service")
        (some (strOf "new ctx")) 3 (strOf "")).2 = [] := by
  decide

/-- Claim C9 (amended): `add_document` stamps `created_at` with the write
instant, overwriting any caller-supplied value; `upsert_document` stamps only
`updated_at` and never adds `created_at` (the caller's binding, present or
absent, is preserved).  During retention pruning a document with no truthy
`created_at` is aged by the first present of `timestamp` then `updated_at` —
`updated_at` governs only when the caller also supplied no `timestamp`. -/
theorem C9_timestamps :
    (∀ (now : Nat) (st : Store) (col : String) (docId content : Str) (meta : Meta),
       getDoc st col docId = none →
       getDoc (addDocument now st col docId content meta).2 col docId
         = some ⟨content, setMeta meta "created_at" (MVal.t now)⟩
       ∧ getMeta (setMeta meta "created_at" (MVal.t now)) "created_at"
           = some (MVal.t now))
  ∧ (∀ (now : Nat) (st : Store) (col : String) (docId content : Str) (meta : Meta),
       getDoc (upsertDocument now st col docId content meta).2 col docId
         = some ⟨content, setMeta meta "updated_at" (MVal.t now)⟩
       ∧ getMeta (setMeta meta "updated_at" (MVal.t now)) "created_at"
           = getMeta meta "created_at")
  ∧ (∀ (m : Meta) (v : MVal), getMeta m "created_at" = none →
       getMeta m "timestamp" = some v → truthyMVal v = true → pruneTs m = some v)
  ∧ (∀ m : Meta, getMeta m "created_at" = none → getMeta m "timestamp" = none →
       pruneTs m = getTruthy m "updated_at") := by
  refine ⟨?_, ?_, ?_, ?_⟩
  · intro now st col docId content meta h
    constructor
    · simp [addDocument, h, getDoc_putDoc_self]
    · exact getMeta_setMeta_self _ _ _
  · intro now st col docId content meta
    constructor
    · simp [upsertDocument, getDoc_putDoc_self]
    · exact getMeta_setMeta_other _ _ _ _ (by decide)
  · intro m v h1 h2 h3
    simp [pruneTs, getTruthy, h1, h2, h3]
  · intro m h1 h2
    simp [pruneTs, getTruthy, h1, h2]

/-- Witness for C9: the three clauses at concrete metadata. -/
theorem C9_timestamps_witness :
    (getDoc (addDocument 9 [] "sessions" (strOf "x") (strOf "c")
        [("created_at", MVal.t 1)]).2 "sessions" (strOf "x")
      = some ⟨strOf "c", setMeta [("created_at", MVal.t 1)] "created_at" (MVal.t 9)⟩)
    ∧ getMeta (setMeta [("timestamp", MVal.t 5)] "updated_at" (MVal.t 9)) "created_at"
        = getMeta [("timestamp", MVal.t 5)] "created_at"
    ∧ pruneTs [("timestamp", MVal.t 5), ("updated_at", MVal.t 9)] = some (MVal.t 5)
    ∧ pruneTs [("updated_at", MVal.t 9)]
        = getTruthy [("updated_at", MVal.t 9)] "updated_at" :=
  ⟨(C9_timestamps.1 9 [] "sessions" (strOf "x") (strOf "c")
      [("created_at", MVal.t 1)] (by decide)).1,
   (C9_timestamps.2.1 9 [] "sessions" (strOf "x") (strOf "c")
      [("timestamp", MVal.t 5)]).2,
   C9_timestamps.2.2.1 [("timestamp", MVal.t 5), ("updated_at", MVal.t 9)]
      (MVal.t 5) (by decide) (by decide) (by decide),
   C9_timestamps.2.2.2 [("updated_at", MVal.t 9)] (by decide) (by decide)⟩

/-- Counterexample for C9: a document only ever written through
`upsert_document`, whose caller metadata carries a `timestamp`, is pruned by
that `timestamp` (5 < cutoff 50) even though its `updated_at` (100) is after
the cutoff — it is not aged by `updated_at` as claimed. -/
theorem C9_counterexample :
    (getDoc (upsertDocument 100 [] "entities" (strOf "e1") (strOf "c")
        [("timestamp", MVal.t 5)]).2 "entities" (strOf "e1")).map
      (fun d => getMeta d.metadata "created_at") = some none
    ∧ (getDoc (upsertDocument 100 [] "entities" (strOf "e1") (strOf "c")
        [("timestamp", MVal.t 5)]).2 "entities" (strOf "e1")).map
      (fun d => getMeta d.metadata "updated_at") = some (some (MVal.t 100))
    ∧ pruneCollectionIds (upsertDocument 100 [] "entities" (strOf "e1") (strOf "c")
        [("timestamp", MVal.t 5)]).2 "entities" 50 = [strOf "e1"]
    ∧ ¬ (100 < 50) := by
  decide

/-- The empty substring is contained (case-insensitively) in every text. -/
theorem containsSubCI_nil (m : Str) : containsSubCI m [] = true := by
  unfold containsSubCI
  unfold containsSubCI.go
  simp [pyLower, List.isPrefixOf]

/-- Claim C10: `dismiss_nudge` marks as dismissed every stored record whose
message contains the given substring case-insensitively, and likewise
`dismiss_anomaly` on descriptions; with the empty substring every stored
record is dismissed. -/
theorem C10_dismiss :
    (∀ (sub : Str) (ns : List Nudge) (i : Nat) (h : i < ns.length),
       containsSubCI (ns[i].message) sub = true →
       ∃ n', ((dismissNudge sub ns).1)[i]? = some n' ∧ n'.dismissed = true)
  ∧ (∀ (ns : List Nudge) (n' : Nudge),
       n' ∈ (dismissNudge [] ns).1 → n'.dismissed = true)
  ∧ (∀ (sub : Str) (al : List Anomaly) (i : Nat) (h : i < al.length),
       containsSubCI (al[i].description) sub = true →
       ∃ a', ((dismissAnomaly sub al).1)[i]? = some a' ∧ a'.dismissed = true)
  ∧ (∀ (al : List Anomaly) (a' : Anomaly),
       a' ∈ (dismissAnomaly [] al).1 → a'.dismissed = true) := by
  refine ⟨?_, ?_, ?_, ?_⟩
  · intro sub ns i h hc
    refine ⟨if containsSubCI (ns[i].message) sub then
        { ns[i] with dismissed := true } else ns[i], ?_, ?_⟩
    · simp [dismissNudge, List.getElem?_map, List.getElem?_eq_getElem h]
    · simp [hc]
  · intro ns n' hmem
    simp only [dismissNudge, List.mem_map] at hmem
    obtain ⟨a, _, ha⟩ := hmem
    rw [containsSubCI_nil a.message] at ha
    simp at ha
    rw [← ha]
  · intro sub al i h hc
    refine ⟨if containsSubCI (al[i].description) sub then
        { al[i] with dismissed := true } else al[i], ?_, ?_⟩
    · simp [dismissAnomaly, List.getElem?_map, List.getElem?_eq_getElem h]
    · simp [hc]
  · intro al a' hmem
    simp only [dismissAnomaly, List.mem_map] at hmem
    obtain ⟨a, _, ha⟩ := hmem
    rw [containsSubCI_nil a.description] at ha
    simp at ha
    rw [← ha]

/-- Witness for C10: dismissing by the substring "THE" marks a matching
stored nudge, and the empty substring dismisses everything. -/
theorem C10_dismiss_witness :
    (∃ n', ((dismissNudge (strOf "THE")
        [⟨strOf "Fix the db", "reminder", "medium", 0, none, none, false⟩]).1)[0]?
        = some n' ∧ n'.dismissed = true)
    ∧ (∀ n', n' ∈ (dismissNudge []
        [⟨strOf "anything", "reminder", "low", 0, none, none, false⟩]).1 →
        n'.dismissed = true) :=
  ⟨C10_dismiss.1 (strOf "THE")
      [⟨strOf "Fix the db", "reminder", "medium", 0, none, none, false⟩] 0
      (by decide) (by decide),
   fun n' h => C10_dismiss.2.1
      [⟨strOf "anything", "reminder", "low", 0, none, none, false⟩] n' h⟩

/-- A strict-majority word overlap forces both word sets non-empty. -/
theorem sharedWords_pos (a b : List Str)
    (h : 4 * max a.length b.length < 5 * sharedWords a b) : a ≠ [] ∧ b ≠ [] := by
  have hsw : 1 ≤ sharedWords a b := by omega
  unfold sharedWords at hsw
  obtain ⟨w, hw⟩ : ∃ w, w ∈ a.filter (fun w => w ∈ b) := by
    cases hfa : a.filter (fun w => w ∈ b) with
    | nil => rw [hfa] at hsw; simp at hsw
    | cons x t => exact ⟨x, by simp [hfa]⟩
  have hm := List.mem_filter.mp hw
  exact ⟨List.ne_nil_of_mem hm.1,
         List.ne_nil_of_mem (by simpa using hm.2)⟩

/-- The two `_is_duplicate` bodies, characterised: a new message is a
duplicate exactly when some existing message is identical after lowering and
stripping, or shares strictly more than 80 % of the distinct words of the
larger side. -/
theorem isDuplicateMsg_iff (msgs : List Str) (m : Str) :
    isDuplicateMsg msgs m = true ↔
    ∃ s ∈ msgs,
      pyStrip (pyLower m) = pyStrip (pyLower s)
      ∨ 4 * max (wordSet (pyStrip (pyLower m))).length
            (wordSet (pyStrip (pyLower s))).length
          < 5 * sharedWords (wordSet (pyStrip (pyLower m)))
              (wordSet (pyStrip (pyLower s))) := by
  unfold isDuplicateMsg
  rw [List.any_eq_true]
  constructor
  · rintro ⟨s, hs, hcond⟩
    refine ⟨s, hs, ?_⟩
    simp only at hcond
    by_cases heq : pyStrip (pyLower m) = pyStrip (pyLower s)
    · exact Or.inl heq
    · right
      rw [if_neg heq] at hcond
      split_ifs at hcond with hg
      exact of_decide_eq_true hcond
  · rintro ⟨s, hs, hcond⟩
    refine ⟨s, hs, ?_⟩
    simp only
    by_cases heq : pyStrip (pyLower m) = pyStrip (pyLower s)
    · rw [if_pos heq]
    · rcases hcond with heq' | hov
      · exact absurd heq' heq
      · rw [if_neg heq]
        have hne := sharedWords_pos _ _ hov
        rw [if_pos hne]
        exact decide_eq_true hov

/-- Claim C7 (amended): a single stored item is suppressed — nothing added,
the saved list is just the sorted, capped active set — whenever some
non-expired existing item's message is identical case-insensitively (after
stripping) or shares strictly more than 80 % of its distinct words; in
particular an identical message is never added.  The same holds for
anomalies against the non-expired, non-dismissed active set. -/
theorem C7_dedup :
    (∀ (now : Nat) (existing : List Nudge) (item : NudgeIn) (sid : Option Str),
       (∃ e ∈ activeNudgesAt now existing,
          pyStrip (pyLower item.message) = pyStrip (pyLower e.message)
          ∨ 4 * max (wordSet (pyStrip (pyLower item.message))).length
                (wordSet (pyStrip (pyLower e.message))).length
              < 5 * sharedWords (wordSet (pyStrip (pyLower item.message)))
                  (wordSet (pyStrip (pyLower e.message)))) →
       (storeNudges now existing [item] sid).2 = 0
       ∧ (storeNudges now existing [item] sid).1
           = (stableSort nudgeLe (activeNudgesAt now existing)).take 20)
  ∧ (∀ (now : Nat) (existing : List Anomaly) (item : AnomalyIn) (sid : Option Str),
       (∃ e ∈ activeAnomaliesAt now existing,
          pyStrip (pyLower item.description) = pyStrip (pyLower e.description)
          ∨ 4 * max (wordSet (pyStrip (pyLower item.description))).length
                (wordSet (pyStrip (pyLower e.description))).length
              < 5 * sharedWords (wordSet (pyStrip (pyLower item.description)))
                  (wordSet (pyStrip (pyLower e.description)))) →
       (storeAnomalies now existing [item] sid).2 = 0
       ∧ (storeAnomalies now existing [item] sid).1
           = (stableSort anomalyLe (activeAnomaliesAt now existing)).take 30) := by
  constructor
  · intro now existing item sid hdup
    have hd : isDuplicateNudge (activeNudgesAt now existing) item.message = true := by
      unfold isDuplicateNudge
      rw [isDuplicateMsg_iff]
      obtain ⟨e, he, hc⟩ := hdup
      exact ⟨e.message, List.mem_map_of_mem Nudge.message he, hc⟩
    constructor <;> simp [storeNudges, hd]
  · intro now existing item sid hdup
    have hd : isDuplicateAnomaly (activeAnomaliesAt now existing)
        item.description = true := by
      unfold isDuplicateAnomaly
      rw [isDuplicateMsg_iff]
      obtain ⟨e, he, hc⟩ := hdup
      exact ⟨e.description, List.mem_map_of_mem Anomaly.description he, hc⟩
    by_cases hdesc : item.description = []
    · constructor <;> simp [storeAnomalies, hdesc]
    · constructor <;> simp [storeAnomalies, hdesc, hd]

/-- Witness for C7: an identical message (up to case) is suppressed. -/
theorem C7_dedup_witness :
    (storeNudges 0
      [⟨strOf "Deploy the fix", "reminder", "medium", 0, none, none, false⟩]
      [⟨strOf "DEPLOY THE FIX", none, none, none, none⟩] none).2 = 0
    ∧ (storeAnomalies 0
      [⟨strOf "Port drift seen", "drift", "medium", strOf "", none, 0, none, false⟩]
      [⟨strOf "port drift seen", none, none, none, none⟩] none).2 = 0 :=
  ⟨(C7_dedup.1 0
      [⟨strOf "Deploy the fix", "reminder", "medium", 0, none, none, false⟩]
      ⟨strOf "DEPLOY THE FIX", none, none, none, none⟩ none
      ⟨⟨strOf "Deploy the fix", "reminder", "medium", 0, none, none, false⟩,
        by decide, Or.inl (by decide)⟩).1,
   (C7_dedup.2 0
      [⟨strOf "Port drift seen", "drift", "medium", strOf "", none, 0, none, false⟩]
      ⟨strOf "port drift seen", none, none, none, none⟩ none
      ⟨⟨strOf "Port drift seen", "drift", "medium", strOf "", none, 0, none, false⟩,
        by decide, Or.inl (by decide)⟩).1⟩

/-- Counterexample for C7: a new nudge sharing exactly 80 % of its words with
an active one (4 shared of max-size 5) is NOT suppressed — the code requires
strictly more than 80 % — so it is appended and counted. -/
theorem C7_counterexample :
    5 * sharedWords (wordSet (strOf "a b c d")) (wordSet (strOf "a b c d e"))
      = 4 * max (wordSet (strOf "a b c d")).length (wordSet (strOf "a b c d e")).length
    ∧ (storeNudges 10
        [⟨strOf "a b c d e", "reminder", "medium", 0, none, none, false⟩]
        [⟨strOf "a b c d", none, none, none, none⟩] none).2 = 1
    ∧ strOf "a b c d" ∈ ((storeNudges 10
        [⟨strOf "a b c d e", "reminder", "medium", 0, none, none, false⟩]
        [⟨strOf "a b c d", none, none, none, none⟩] none).1.map Nudge.message) := by
  decide

/-- `mark_unhealthy("kb_gateway", ...)` does not touch the context cache. -/
theorem markUnhealthyKb_cache (dm : DM) (e : String) (now : Nat) :
    (markUnhealthyKb dm e now).cache = dm.cache
    ∧ (markUnhealthyKb dm e now).cacheSource = dm.cacheSource := ⟨rfl, rfl⟩

/-- Claim C8 (amended): `write_master_context` updates the in-memory cache
with tag "live" before any disk write whenever the content is longer than 50
characters (shorter content is never cached — see the counterexample); for
such content, when every write target fails the function returns False after
marking kb_gateway unhealthy, and a subsequent read with no file source
serves the cached content that was never persisted. -/
theorem C8_write_cache (st : KBState) (content : Str)
    (extMounted standalone localOk extOk : Bool) (now : Nat)
    (hlen : 50 < content.length) :
    ((writeMasterContext st content extMounted standalone localOk extOk now).2).dm.cache
      = some content
    ∧ ((writeMasterContext st content extMounted standalone localOk extOk now).2).dm.cacheSource
      = "live"
    ∧ (localOk = false →
       (extMounted = false ∨ standalone = true ∨ extOk = false) →
       (writeMasterContext st content extMounted standalone localOk extOk now).1 = false
       ∧ ((writeMasterContext st content extMounted standalone localOk extOk now).2).dm.kbHealthy
         = false
       ∧ (st.localFile = none → st.externalFile = none →
          (readMasterContext
            (writeMasterContext st content extMounted standalone localOk extOk now).2
            extMounted standalone now).1 = some content)) := by
  have hne : content ≠ [] := by
    intro h
    rw [h] at hlen
    simp at hlen
  have hproj :
      ((writeMasterContext st content extMounted standalone localOk extOk now).2).dm.cache
        = some content
      ∧ ((writeMasterContext st content extMounted standalone localOk extOk now).2).dm.cacheSource
        = "live" := by
    cases extMounted <;> cases standalone <;> cases extOk <;> cases localOk <;>
      simp [writeMasterContext, updateCache, hlen, markHealthyKb, markUnhealthyKb]
  refine ⟨hproj.1, hproj.2, ?_⟩
  intro hl hfail
  have hres :
      (writeMasterContext st content extMounted standalone localOk extOk now).1 = false
      ∧ ((writeMasterContext st content extMounted standalone localOk extOk now).2).dm.kbHealthy
        = false
      ∧ ((writeMasterContext st content extMounted standalone localOk extOk now).2).localFile
        = st.localFile
      ∧ ((writeMasterContext st content extMounted standalone localOk extOk now).2).externalFile
        = st.externalFile := by
    subst hl
    cases extMounted <;> cases standalone <;> cases extOk <;>
      simp_all [writeMasterContext, updateCache, hlen, markHealthyKb, markUnhealthyKb]
  refine ⟨hres.1, hres.2.1, ?_⟩
  intro hlf hef
  have hlf' : ((writeMasterContext st content extMounted standalone localOk extOk now).2).localFile
      = none := hres.2.2.1.trans hlf
  have hef' : ((writeMasterContext st content extMounted standalone localOk extOk now).2).externalFile
      = none := hres.2.2.2.trans hef
  have hcache := hproj.1
  cases hm : extMounted <;> cases hs : standalone <;>
    simp only [hm, hs] at hlf' hef' hcache <;>
    simp [readMasterContext, readMasterContext.readMasterLocal, hlf', hef',
      truthyFile, markUnhealthyKb, hcache, hne]

/-- Witness for C8: a 60-character content, all targets failing. -/
theorem C8_write_cache_witness :
    ((writeMasterContext ⟨⟨none, 0, "none", ⟨3, 120, 0, 0, "closed"⟩, true, none,
        ⟨3, 30, 0, 0, "closed"⟩, true, none⟩, none, none⟩
      (strOf "aaaaaaaaaaaaaaaaaaaaaaaaaaaaaaaaaaaaaaaaaaaaaaaaaaaaaaaaaaaa")
      false false false false 4).2).dm.cache
      = some (strOf "aaaaaaaaaaaaaaaaaaaaaaaaaaaaaaaaaaaaaaaaaaaaaaaaaaaaaaaaaaaa")
    ∧ (writeMasterContext ⟨⟨none, 0, "none", ⟨3, 120, 0, 0, "closed"⟩, true, none,
        ⟨3, 30, 0, 0, "closed"⟩, true, none⟩, none, none⟩
      (strOf "aaaaaaaaaaaaaaaaaaaaaaaaaaaaaaaaaaaaaaaaaaaaaaaaaaaaaaaaaaaa")
      false false false false 4).1 = false
    ∧ (readMasterContext
        (writeMasterContext ⟨⟨none, 0, "none", ⟨3, 120, 0, 0, "closed"⟩, true, none,
          ⟨3, 30, 0, 0, "closed"⟩, true, none⟩, none, none⟩
        (strOf "aaaaaaaaaaaaaaaaaaaaaaaaaaaaaaaaaaaaaaaaaaaaaaaaaaaaaaaaaaaa")
        false false false false 4).2 false false 4).1
      = some (strOf "aaaaaaaaaaaaaaaaaaaaaaaaaaaaaaaaaaaaaaaaaaaaaaaaaaaaaaaaaaaa") :=
  ⟨(C8_write_cache _ _ false false false false 4 (by decide)).1,
   ((C8_write_cache _ _ false false false false 4 (by decide)).2.2 rfl
      (Or.inl rfl)).1,
   ((C8_write_cache _ _ false false false false 4 (by decide)).2.2 rfl
      (Or.inl rfl)).2.2 rfl rfl⟩

/-- Counterexample for C8: content of 5 characters is written successfully
but the cache is NOT updated with it (the `len(content) > 50` guard), so
`write_master_context` does not always update the cache. -/
theorem C8_counterexample :
    (writeMasterContext ⟨⟨none, 0, "none", ⟨3, 120, 0, 0, "closed"⟩, true, none,
        ⟨3, 30, 0, 0, "closed"⟩, true, none⟩, none, none⟩
      (strOf "short") true false true true 9).1 = true
    ∧ ((writeMasterContext ⟨⟨none, 0, "none", ⟨3, 120, 0, 0, "closed"⟩, true, none,
        ⟨3, 30, 0, 0, "closed"⟩, true, none⟩, none, none⟩
      (strOf "short") true false true true 9).2).dm.cache = none := by
  decide

/-- The trimming loop keeps at most `budget + 3` characters of hit content
(the `+3` is the appended `"..."` of a truncated hit). -/
theorem trimHits_sum_le (hits : List Str) (budget : Int) :
    (((trimHits budget hits).map List.length).sum : Int) ≤ max 0 (budget + 3) := by
  induction hits generalizing budget with
  | nil =>
    simp [trimHits]
  | cons h t ih =>
    unfold trimHits
    by_cases hb : (200 : Int) < budget
    · rw [if_pos hb]
      by_cases hlen : budget < (h.length : Int)
      · rw [if_pos hlen]
        have hd : (strOf "...").length = 3 := by decide
        have htn : budget.toNat ≤ h.length := by omega
        have hL : (((h.take budget.toNat ++ strOf "...").length : Nat) : Int)
            = budget + 3 := by
          rw [List.length_append, hd, List.length_take, Nat.min_eq_left htn]
          omega
        simp only [List.map_cons, List.sum_cons, Nat.cast_add]
        rw [hL]
        have hrec := ih (budget - (budget + 3))
        have harg : budget - (budget + 3) + 3 = 0 := by ring
        rw [harg, max_self] at hrec
        rw [max_eq_right (by omega : (0 : Int) ≤ budget + 3)]
        omega
      · rw [if_neg hlen]
        simp only [List.map_cons, List.sum_cons, Nat.cast_add]
        have hrec := ih (budget - (h.length : Int))
        rw [max_eq_right (by omega : (0 : Int) ≤ budget - (h.length : Int) + 3)] at hrec
        rw [max_eq_right (by omega : (0 : Int) ≤ budget + 3)]
        omega
    · rw [if_neg hb]
      simp

/-- Claim C6 (amended): the load response obeys the character budget only up
to the three-character `"..."` marker appended to a truncated hit (and a
master context alone may exceed the budget): the total is at most
`max (len master) (MAX_LOAD_RESPONSE_CHARS + 3)`. -/
theorem C6_budget (hot : Str) (hits : List Str) :
    loadResponseChars hot (enforceBudget hot hits)
      ≤ max hot.length (MAX_LOAD_RESPONSE_CHARS + 3) := by
  unfold enforceBudget loadResponseChars
  by_cases hc : MAX_LOAD_RESPONSE_CHARS < hot.length + (hits.map List.length).sum
  · rw [if_pos hc]
    have hle := trimHits_sum_le hits ((MAX_LOAD_RESPONSE_CHARS : Int) - (hot.length : Int))
    rcases max_cases (0 : Int)
        ((MAX_LOAD_RESPONSE_CHARS : Int) - (hot.length : Int) + 3) with ⟨he, _⟩ | ⟨he, _⟩ <;>
      rw [he] at hle <;>
      rcases max_cases hot.length (MAX_LOAD_RESPONSE_CHARS + 3) with ⟨hg, _⟩ | ⟨hg, _⟩ <;>
      rw [hg] <;> omega
  · rw [if_neg hc]
    rcases max_cases hot.length (MAX_LOAD_RESPONSE_CHARS + 3) with ⟨hg, _⟩ | ⟨hg, _⟩ <;>
      rw [hg] <;> omega

/-- A single over-long hit within budget margin is truncated to the budget
plus the three-character marker. -/
theorem trimHits_single (budget : Int) (h : Str)
    (hb : (200 : Int) < budget) (hlen : budget < (h.length : Int)) :
    trimHits budget [h] = [h.take budget.toNat ++ strOf "..."] := by
  rw [trimHits, if_pos hb, if_pos hlen]
  dsimp only
  rw [trimHits]

/-- Response size of a 39 000-character master with one hit truncated to
1 000 characters plus the "..." marker. -/
theorem loadChars_after_trim : ∀ l1 l2 : Str, l1.length = 39000 → l2.length = 2000 →
    loadResponseChars l1 [l2.take 1000 ++ strOf "..."] = 40003 := by
  intro l1 l2 h1 h2
  simp only [loadResponseChars, List.map_cons, List.map_nil, List.sum_cons,
    List.sum_nil, List.length_append, List.length_take]
  rw [h1, h2, show (strOf "...").length = 3 from rfl]
  norm_num

/-- Counterexample for C6: a 39 000-character master and a 2 000-character
archive hit.  The budget step truncates the hit to the 1 000 remaining
characters and appends "...", so the response totals 40 003 characters —
more than `MAX_LOAD_RESPONSE_CHARS = 40 000`. -/
theorem C6_counterexample :
    loadResponseChars (List.replicate 39000 'a')
      (enforceBudget (List.replicate 39000 'a') [List.replicate 2000 'b']) = 40003
    ∧ MAX_LOAD_RESPONSE_CHARS < 40003 := by
  set hot := List.replicate 39000 'a' with hhot
  set hit := List.replicate 2000 'b' with hhit
  clear_value hot hit
  have hL : hot.length = 39000 := by rw [hhot]; exact List.length_replicate _ _
  have hC : hit.length = 2000 := by rw [hhit]; exact List.length_replicate _ _
  have hcond : MAX_LOAD_RESPONSE_CHARS < hot.length + (([hit]).map List.length).sum := by
    rw [hL]
    simp only [List.map_cons, List.map_nil, List.sum_cons, List.sum_nil]
    rw [hC]
    norm_num [MAX_LOAD_RESPONSE_CHARS]
  have hbudget : ((MAX_LOAD_RESPONSE_CHARS : Int) - (hot.length : Int)) = 1000 := by
    rw [hL]
    norm_num [MAX_LOAD_RESPONSE_CHARS]
  have henf : enforceBudget hot [hit] = [hit.take 1000 ++ strOf "..."] := by
    simp only [enforceBudget]
    rw [if_pos hcond, hbudget]
    rw [trimHits_single 1000 _ (by norm_num) (by rw [hC]; norm_num)]
    rw [show ((1000 : Int).toNat) = 1000 from rfl]
  rw [henf]
  exact ⟨loadChars_after_trim hot hit hL hC, by norm_num [MAX_LOAD_RESPONSE_CHARS]⟩

end ContextEngine
